import Mathlib

/-!
# Key bindings and key-event dispatch (`src/client/keys.c`)

A shallow embedding of the key subsystem of the client: the static key-name
table, the binding store, the destination mask and the `Key_Event` state
machine, followed by theorems about them.

Conventions of the embedding.

* C strings are lists of characters (`Text`); a `NULL` pointer is `none`.
* The 256-entry tables (`keybindings`, `keydown`, `key_repeats`, ...) are
  functions on `Nat`; the code only ever indexes them below 256.
* `int` counters are `Int` (no event sequence of realistic length reaches
  the 32-bit limit); `unsigned` arguments are `Nat`, and the `%i` conversion
  reads them back as a 32-bit `int` (`as_int`).
* The header constants (`K_*`, `KEY_*`, `ca_active`, `MAX_STRING_CHARS`,
  `USE_CHAR_EVENTS`) are declared outside `keys.c`; they are taken as the
  parameter `Consts`.
* Calls into other subsystems are recorded, in order, in `Client.calls`;
  text given to `Cbuf_AddText` is appended to `Client.cmd_buffer`.  The
  developer trace `Com_DDDPrintf` is not recorded.
-/

namespace Keys

/-- A C string. -/
abbrev Text := List Char

/-- Constants that `keys.c` takes from its headers. -/
structure Consts where
  K_BACKSPACE : Nat
  K_TAB : Nat
  K_ENTER : Nat
  K_PAUSE : Nat
  K_ESCAPE : Nat
  K_SPACE : Nat
  K_UPARROW : Nat
  K_DOWNARROW : Nat
  K_LEFTARROW : Nat
  K_RIGHTARROW : Nat
  K_ALT : Nat
  K_LALT : Nat
  K_RALT : Nat
  K_CTRL : Nat
  K_LCTRL : Nat
  K_RCTRL : Nat
  K_SHIFT : Nat
  K_LSHIFT : Nat
  K_RSHIFT : Nat
  K_F1 : Nat
  K_F2 : Nat
  K_F3 : Nat
  K_F4 : Nat
  K_F5 : Nat
  K_F6 : Nat
  K_F7 : Nat
  K_F8 : Nat
  K_F9 : Nat
  K_F10 : Nat
  K_F11 : Nat
  K_F12 : Nat
  K_INS : Nat
  K_DEL : Nat
  K_PGDN : Nat
  K_PGUP : Nat
  K_HOME : Nat
  K_END : Nat
  K_NUMLOCK : Nat
  K_CAPSLOCK : Nat
  K_SCROLLOCK : Nat
  K_LWINKEY : Nat
  K_RWINKEY : Nat
  K_MENU : Nat
  K_KP_HOME : Nat
  K_KP_UPARROW : Nat
  K_KP_PGUP : Nat
  K_KP_LEFTARROW : Nat
  K_KP_5 : Nat
  K_KP_RIGHTARROW : Nat
  K_KP_END : Nat
  K_KP_DOWNARROW : Nat
  K_KP_PGDN : Nat
  K_KP_ENTER : Nat
  K_KP_INS : Nat
  K_KP_DEL : Nat
  K_KP_SLASH : Nat
  K_KP_MINUS : Nat
  K_KP_PLUS : Nat
  K_KP_MULTIPLY : Nat
  K_MOUSE1 : Nat
  K_MOUSE2 : Nat
  K_MOUSE3 : Nat
  K_MOUSE4 : Nat
  K_MOUSE5 : Nat
  K_MOUSE6 : Nat
  K_MOUSE7 : Nat
  K_MOUSE8 : Nat
  K_MWHEELUP : Nat
  K_MWHEELDOWN : Nat
  K_MWHEELRIGHT : Nat
  K_MWHEELLEFT : Nat
  K_MOUSEFIRST : Nat
  K_ASCIIFIRST : Nat
  K_ASCIILAST : Nat
  KEY_GAME : Nat
  KEY_CONSOLE : Nat
  KEY_MESSAGE : Nat
  KEY_MENU : Nat
  ca_active : Int
  MAX_STRING_CHARS : Nat
  USE_CHAR_EVENTS : Bool
  /-- whether plain `char` is a signed type on the target -/
  CHAR_SIGNED : Bool

/-- One admissible assignment of the header constants (the customary
Quake II key numbering), used to instantiate the general theorems. -/
def sampleConsts : Consts where
  K_BACKSPACE := 8
  K_TAB := 9
  K_ENTER := 13
  K_PAUSE := 19
  K_ESCAPE := 27
  K_SPACE := 32
  K_UPARROW := 128
  K_DOWNARROW := 129
  K_LEFTARROW := 130
  K_RIGHTARROW := 131
  K_ALT := 132
  K_CTRL := 133
  K_SHIFT := 134
  K_F1 := 135
  K_F2 := 136
  K_F3 := 137
  K_F4 := 138
  K_F5 := 139
  K_F6 := 140
  K_F7 := 141
  K_F8 := 142
  K_F9 := 143
  K_F10 := 144
  K_F11 := 145
  K_F12 := 146
  K_INS := 147
  K_DEL := 127
  K_PGDN := 149
  K_PGUP := 150
  K_HOME := 151
  K_END := 152
  K_NUMLOCK := 154
  K_CAPSLOCK := 155
  K_SCROLLOCK := 156
  K_LWINKEY := 157
  K_RWINKEY := 158
  K_MENU := 159
  K_KP_HOME := 160
  K_KP_UPARROW := 161
  K_KP_PGUP := 162
  K_KP_LEFTARROW := 163
  K_KP_5 := 164
  K_KP_RIGHTARROW := 165
  K_KP_END := 166
  K_KP_DOWNARROW := 167
  K_KP_PGDN := 168
  K_KP_ENTER := 169
  K_KP_INS := 170
  K_KP_DEL := 171
  K_KP_SLASH := 172
  K_KP_MINUS := 173
  K_KP_PLUS := 174
  K_KP_MULTIPLY := 175
  K_LALT := 180
  K_RALT := 181
  K_LCTRL := 182
  K_RCTRL := 183
  K_LSHIFT := 184
  K_RSHIFT := 185
  K_MOUSE1 := 200
  K_MOUSE2 := 201
  K_MOUSE3 := 202
  K_MOUSE4 := 203
  K_MOUSE5 := 204
  K_MOUSE6 := 205
  K_MOUSE7 := 206
  K_MOUSE8 := 207
  K_MWHEELDOWN := 210
  K_MWHEELUP := 211
  K_MWHEELRIGHT := 212
  K_MWHEELLEFT := 213
  K_MOUSEFIRST := 200
  K_ASCIIFIRST := 32
  K_ASCIILAST := 127
  KEY_GAME := 0
  KEY_CONSOLE := 1
  KEY_MESSAGE := 2
  KEY_MENU := 4
  ca_active := 8
  MAX_STRING_CHARS := 1024
  USE_CHAR_EVENTS := false
  CHAR_SIGNED := true

/-! ## Text helpers -/

/-- Decimal digits of a natural number. -/
def decimal (n : Nat) : Text := Nat.toDigits 10 n

/-- The `int` that a 32-bit `unsigned` argument is read as by `%i`. -/
def as_int (v : Nat) : Int :=
  if v % 2 ^ 32 < 2 ^ 31 then ((v % 2 ^ 32 : Nat) : Int) else ((v % 2 ^ 32 : Nat) : Int) - 2 ^ 32

/-- The `%i` conversion of `printf`. -/
def fmt_i (i : Int) : Text :=
  if i < 0 then '-' :: decimal i.natAbs else decimal i.toNat

/-- Modelled from the spec: `Q_snprintf` is defined outside `keys.c`; it
formats into a buffer of `size` bytes, keeping at most `size - 1` characters. -/
def Q_snprintf (size : Nat) (formatted : Text) : Text := formatted.take (size - 1)

/-- ASCII lower-casing of one character. -/
def Q_tolower (ch : Char) : Char :=
  if 'A' ≤ ch ∧ ch ≤ 'Z' then Char.ofNat (ch.toNat + 32) else ch

/-- Modelled from the spec: `Q_stricmp` is defined outside `keys.c`; it is the
case-insensitive comparison, here reduced to its test for equality
(`!Q_stricmp(a, b)`). -/
def Q_stricmp_eq (a b : Text) : Bool := a.map Q_tolower == b.map Q_tolower

/-- The value of a `char` converted to `int`. -/
def char_to_int (c : Consts) (ch : Char) : Int :=
  if c.CHAR_SIGNED ∧ 128 ≤ ch.toNat then (ch.toNat : Int) - 256 else (ch.toNat : Int)

/-! ## Key names -/

/-- The static table `keynames` (without its terminating `{NULL, 0}`). -/
def keynames (c : Consts) : List (Text × Nat) :=
  [ ("BACKSPACE".toList, c.K_BACKSPACE),
    ("TAB".toList, c.K_TAB),
    ("ENTER".toList, c.K_ENTER),
    ("PAUSE".toList, c.K_PAUSE),
    ("ESCAPE".toList, c.K_ESCAPE),
    ("SPACE".toList, c.K_SPACE),
    ("UPARROW".toList, c.K_UPARROW),
    ("DOWNARROW".toList, c.K_DOWNARROW),
    ("LEFTARROW".toList, c.K_LEFTARROW),
    ("RIGHTARROW".toList, c.K_RIGHTARROW),
    ("ALT".toList, c.K_ALT),
    ("LALT".toList, c.K_LALT),
    ("RALT".toList, c.K_RALT),
    ("CTRL".toList, c.K_CTRL),
    ("LCTRL".toList, c.K_LCTRL),
    ("RCTRL".toList, c.K_RCTRL),
    ("SHIFT".toList, c.K_SHIFT),
    ("LSHIFT".toList, c.K_LSHIFT),
    ("RSHIFT".toList, c.K_RSHIFT),
    ("F1".toList, c.K_F1),
    ("F2".toList, c.K_F2),
    ("F3".toList, c.K_F3),
    ("F4".toList, c.K_F4),
    ("F5".toList, c.K_F5),
    ("F6".toList, c.K_F6),
    ("F7".toList, c.K_F7),
    ("F8".toList, c.K_F8),
    ("F9".toList, c.K_F9),
    ("F10".toList, c.K_F10),
    ("F11".toList, c.K_F11),
    ("F12".toList, c.K_F12),
    ("INS".toList, c.K_INS),
    ("DEL".toList, c.K_DEL),
    ("PGDN".toList, c.K_PGDN),
    ("PGUP".toList, c.K_PGUP),
    ("HOME".toList, c.K_HOME),
    ("END".toList, c.K_END),
    ("NUMLOCK".toList, c.K_NUMLOCK),
    ("CAPSLOCK".toList, c.K_CAPSLOCK),
    ("SCROLLOCK".toList, c.K_SCROLLOCK),
    ("LWINKEY".toList, c.K_LWINKEY),
    ("RWINKEY".toList, c.K_RWINKEY),
    ("MENU".toList, c.K_MENU),
    ("KP_HOME".toList, c.K_KP_HOME),
    ("KP_UPARROW".toList, c.K_KP_UPARROW),
    ("KP_PGUP".toList, c.K_KP_PGUP),
    ("KP_LEFTARROW".toList, c.K_KP_LEFTARROW),
    ("KP_5".toList, c.K_KP_5),
    ("KP_RIGHTARROW".toList, c.K_KP_RIGHTARROW),
    ("KP_END".toList, c.K_KP_END),
    ("KP_DOWNARROW".toList, c.K_KP_DOWNARROW),
    ("KP_PGDN".toList, c.K_KP_PGDN),
    ("KP_ENTER".toList, c.K_KP_ENTER),
    ("KP_INS".toList, c.K_KP_INS),
    ("KP_DEL".toList, c.K_KP_DEL),
    ("KP_SLASH".toList, c.K_KP_SLASH),
    ("KP_MINUS".toList, c.K_KP_MINUS),
    ("KP_PLUS".toList, c.K_KP_PLUS),
    ("KP_MULTIPLY".toList, c.K_KP_MULTIPLY),
    ("MOUSE1".toList, c.K_MOUSE1),
    ("MOUSE2".toList, c.K_MOUSE2),
    ("MOUSE3".toList, c.K_MOUSE3),
    ("MOUSE4".toList, c.K_MOUSE4),
    ("MOUSE5".toList, c.K_MOUSE5),
    ("MOUSE6".toList, c.K_MOUSE6),
    ("MOUSE7".toList, c.K_MOUSE7),
    ("MOUSE8".toList, c.K_MOUSE8),
    ("MWHEELUP".toList, c.K_MWHEELUP),
    ("MWHEELDOWN".toList, c.K_MWHEELDOWN),
    ("MWHEELRIGHT".toList, c.K_MWHEELRIGHT),
    ("MWHEELLEFT".toList, c.K_MWHEELLEFT),
    ("SEMICOLON".toList, 59) ]

/-- `Key_StringToKeynum`: a key number for a name; `-1` when there is none. -/
def Key_StringToKeynum (c : Consts) (str : Option Text) : Int :=
  match str with
  | none => -1
  | some [] => -1
  | some [ch] => char_to_int c ch
  | some name =>
    match (keynames c).find? (fun kn => Q_stricmp_eq name kn.1) with
    | some kn => (kn.2 : Int)
    | none => -1

/-- `Key_KeynumToString`: a name for a key number. -/
def Key_KeynumToString (c : Consts) (keynum : Int) : Text :=
  if keynum = -1 then "<KEY NOT FOUND>".toList
  else if keynum > 32 ∧ keynum < 127 then [Char.ofNat keynum.toNat]
  else
    match (keynames c).find? (fun kn => keynum = (kn.2 : Int)) with
    | some kn => kn.1
    | none => "<UNKNOWN KEYNUM>".toList

/-! ## State -/

/-- The two menus `Key_Event` can open. -/
inductive Menu where
  | UIMENU_GAME
  | UIMENU_MAIN
  deriving DecidableEq, Repr

/-- Calls from `keys.c` into the other subsystems. -/
inductive Call where
  | Com_Printf_unbound (name : Text)
  | Con_ToggleConsole_f
  | VID_ToggleFullscreen
  | UI_OpenMenu (menu : Menu)
  | CL_ClientCommand (text : Text)
  | Con_Close (force : Bool)
  | UI_Keydown (key : Nat)
  | Key_Message (key : Nat)
  | Key_Console (key : Nat)
  | Char_Console (key : Nat)
  | UI_CharEvent (key : Nat)
  | Char_Message (key : Nat)
  | IN_Activate
  | CL_CheckForPause
  | Cmd_Register
  | Com_Printf (text : Text)
  deriving DecidableEq, Repr

/-- The outcome of `Com_Error(ERR_FATAL, ...)`, which does not return. -/
inductive Fatal where
  | bad_key
  deriving DecidableEq, Repr

/-- The mutable state `keys.c` works on: its own statics, the fields of `cls`
and `cl` it reads or writes, the command buffer and the record of calls. -/
structure Client where
  anykeydown : Int
  /-- the armed wait callback (a function pointer), `none` for `NULL` -/
  key_wait_cb : Option Nat
  key_wait_arg : Nat
  keybindings : Nat → Option Text
  consolekeys : Nat → Bool
  menubound : Nat → Bool
  keyshift : Nat → Nat
  key_repeats : Nat → Int
  keydown : Nat → Bool
  key_overstrike : Bool
  /-- `cls.key_dest` -/
  key_dest : Nat
  /-- `cls.state` -/
  cls_state : Int
  /-- `cl.frame.ps.stats[STAT_LAYOUTS]` -/
  stat_layouts : Int
  /-- `cls.demo.playback` -/
  demo_playback : Bool
  /-- text appended to `cmd_buffer` by `Cbuf_AddText` -/
  cmd_buffer : Text
  calls : List Call

/-- What running a wait callback does: callback pointer, argument and key
give the returned flag and the state the callback leaves behind. -/
abbrev WaitEnv := Nat → Nat → Nat → Client → Bool × Client

/-- The state of a freshly loaded program: every static is zero. -/
def Client.zero : Client where
  anykeydown := 0
  key_wait_cb := none
  key_wait_arg := 0
  keybindings := fun _ => none
  consolekeys := fun _ => false
  menubound := fun _ => false
  keyshift := fun _ => 0
  key_repeats := fun _ => 0
  keydown := fun _ => false
  key_overstrike := false
  key_dest := 0
  cls_state := 0
  stat_layouts := 0
  demo_playback := false
  cmd_buffer := []
  calls := []

/-- Assignment to one slot of a table. -/
def upd {α : Type} (f : Nat → α) (i : Nat) (v : α) : Nat → α :=
  fun j => if j = i then v else f j

/-- Record a call into another subsystem. -/
def call (s : Client) (x : Call) : Client := { s with calls := s.calls ++ [x] }

/-- `Cbuf_AddText(&cmd_buffer, text)`. -/
def Cbuf_AddText (s : Client) (text : Text) : Client :=
  { s with cmd_buffer := s.cmd_buffer ++ text }

/-- `Key_GetDest`. -/
def Key_GetDest (s : Client) : Nat := s.key_dest

/-- `Key_IsDown`. -/
def Key_IsDown (s : Client) (key : Int) : Bool :=
  if key < 0 ∨ key > 255 then false else s.keydown key.toNat

/-- `Key_AnyKeyDown`. -/
def Key_AnyKeyDown (s : Client) : Int := s.anykeydown

/-- `Key_SetBinding`; a `NULL` binding is copied to `NULL`. -/
def Key_SetBinding (s : Client) (keynum : Int) (binding : Option Text) : Client :=
  if keynum < 0 ∨ keynum > 255 then s
  else { s with keybindings := upd s.keybindings keynum.toNat binding }

/-- `Key_WaitKey`. -/
def Key_WaitKey (s : Client) (wait : Option Nat) (arg : Nat) : Client :=
  { s with key_wait_cb := wait, key_wait_arg := arg }

/-! ## Key_Init -/

/-- The keys `Key_Init` flags as console keys besides the ASCII range. -/
def consolekey_list (c : Consts) : List Nat :=
  [ c.K_BACKSPACE, c.K_TAB, c.K_ENTER,
    c.K_UPARROW, c.K_DOWNARROW, c.K_LEFTARROW, c.K_RIGHTARROW,
    c.K_ALT, c.K_LALT, c.K_RALT, c.K_CTRL, c.K_LCTRL, c.K_RCTRL,
    c.K_SHIFT, c.K_LSHIFT, c.K_RSHIFT,
    c.K_INS, c.K_DEL, c.K_PGDN, c.K_PGUP, c.K_HOME, c.K_END,
    c.K_KP_HOME, c.K_KP_UPARROW, c.K_KP_PGUP, c.K_KP_LEFTARROW, c.K_KP_5,
    c.K_KP_RIGHTARROW, c.K_KP_END, c.K_KP_DOWNARROW, c.K_KP_PGDN, c.K_KP_ENTER,
    c.K_KP_INS, c.K_KP_DEL, c.K_KP_SLASH, c.K_KP_MINUS, c.K_KP_PLUS, c.K_KP_MULTIPLY,
    c.K_MOUSE3, c.K_MWHEELUP, c.K_MWHEELDOWN ]

/-- The explicit assignments to `keyshift` in `Key_Init`, as pairs of
character codes (key, shifted key), in source order. -/
def keyshift_pairs : List (Nat × Nat) :=
  [ (49, 33),   -- 1 !
    (50, 64),   -- 2 @
    (51, 35),   -- 3 #
    (52, 36),   -- 4 $
    (53, 37),   -- 5 %
    (54, 94),   -- 6 ^
    (55, 38),   -- 7 &
    (56, 42),   -- 8 *
    (57, 40),   -- 9 (
    (48, 41),   -- 0 )
    (45, 95),   -- - _
    (61, 43),   -- = +
    (44, 60),   -- , <
    (46, 62),   -- . >
    (47, 63),   -- / ?
    (59, 58),   -- ; :
    (39, 34),   -- quote, double quote
    (91, 123),  -- [ and opening brace
    (93, 125),  -- ] and closing brace
    (96, 126),  -- backtick ~
    (92, 124) ] -- backslash |

/-- The table `keyshift` as `Key_Init` fills it: identity, then the letters
to upper case, then the listed pairs. -/
def keyshift_init (i : Nat) : Nat :=
  match keyshift_pairs.find? (fun p => p.1 = i) with
  | some p => p.2
  | none => if 97 ≤ i ∧ i ≤ 122 then i - 97 + 65 else i

/-- `Key_Init`. -/
def Key_Init (c : Consts) (s : Client) : Client :=
  let consolekeys1 : Nat → Bool :=
    fun i => if c.K_ASCIIFIRST ≤ i ∧ i ≤ c.K_ASCIILAST then true else s.consolekeys i
  let consolekeys2 : Nat → Bool :=
    fun i => if i ∈ consolekey_list c then true else consolekeys1 i
  let keyshift1 : Nat → Nat :=
    fun i => if c.USE_CHAR_EVENTS then s.keyshift i
             else if i < 256 then keyshift_init i else s.keyshift i
  let menubound1 : Nat → Bool :=
    fun i => if i = c.K_ESCAPE ∨ (c.K_F1 ≤ i ∧ i < c.K_F1 + 12) then true else s.menubound i
  call { s with consolekeys := consolekeys2, keyshift := keyshift1, menubound := menubound1 }
    Call.Cmd_Register

/-! ## Key_Event -/

/-- The text `Key_Event` formats for the press of a button binding:
`"%s %i %i\n"` with the binding, the key and the time. -/
def press_text (c : Consts) (kb : Text) (key time : Nat) : Text :=
  Q_snprintf c.MAX_STRING_CHARS
    (kb ++ [' '] ++ fmt_i (as_int key) ++ [' '] ++ fmt_i (as_int time) ++ ['\n'])

/-- The text `Key_Event` formats for the release of a button binding:
`"-%s %i %i\n"` with the binding past its `+`, the key and the time. -/
def release_text (c : Consts) (kb : Text) (key time : Nat) : Text :=
  Q_snprintf c.MAX_STRING_CHARS
    (['-'] ++ kb.tail ++ [' '] ++ fmt_i (as_int key) ++ [' '] ++ fmt_i (as_int time) ++ ['\n'])

/-- The release command of one binding slot: queued when the slot holds a
button binding (`kb && kb[0] == '+'`). -/
def release_binding (c : Consts) (slot key time : Nat) (s : Client) : Client :=
  match s.keybindings slot with
  | some kb => if kb.head? = some '+' then Cbuf_AddText s (release_text c kb key time) else s
  | none => s

/-- The block of `Key_Event` that sends the key to the interpreter through
its binding (the body of the `if` at "if not a consolekey, send to the
interpreter no matter what mode is"). -/
def Key_Event_binding (c : Consts) (key : Nat) (down : Bool) (time : Nat) (s : Client) : Client :=
  if down = false then
    let s1 := release_binding c key key time s
    if c.USE_CHAR_EVENTS = false ∧ s1.keyshift key ≠ key then
      release_binding c (s1.keyshift key) key time s1
    else s1
  else if s.key_repeats key > 1 then s
  else
    let key1 :=
      if c.USE_CHAR_EVENTS = false ∧ Key_IsDown s c.K_SHIFT = true ∧ s.keyshift key ≠ key
          ∧ (s.keybindings (s.keyshift key)).isSome then s.keyshift key
      else key
    match s.keybindings key1 with
    | some kb =>
      if kb.head? = some '+' then Cbuf_AddText s (press_text c kb key1 time)
      else Cbuf_AddText (Cbuf_AddText s kb) ['\n']
    | none => s

/-- The `switch` of `Key_Event` that turns keypad keys into characters. -/
def keypad_char (c : Consts) (key : Nat) : Nat :=
  if key = c.K_KP_SLASH then 47
  else if key = c.K_KP_MULTIPLY then 42
  else if key = c.K_KP_MINUS then 45
  else if key = c.K_KP_PLUS then 43
  else if key = c.K_KP_HOME then 55
  else if key = c.K_KP_UPARROW then 56
  else if key = c.K_KP_PGUP then 57
  else if key = c.K_KP_LEFTARROW then 52
  else if key = c.K_KP_5 then 53
  else if key = c.K_KP_RIGHTARROW then 54
  else if key = c.K_KP_END then 49
  else if key = c.K_KP_DOWNARROW then 50
  else if key = c.K_KP_PGDN then 51
  else if key = c.K_KP_INS then 48
  else if key = c.K_KP_DEL then 46
  else key

/-- The tail of `Key_Event`, reached when the key is not sent through its
binding: key-down events go to the console, menu or message line, and, when
the platform sends no character events, printable keys are sent once more
as characters. -/
def Key_Event_surface (c : Consts) (key : Nat) (down : Bool) (s : Client) : Client :=
  if down = false then s
  else
    let s1 :=
      if s.key_dest &&& c.KEY_CONSOLE ≠ 0 then call s (Call.Key_Console key)
      else if s.key_dest &&& c.KEY_MENU ≠ 0 then call s (Call.UI_Keydown key)
      else if s.key_dest &&& c.KEY_MESSAGE ≠ 0 then call s (Call.Key_Message key)
      else s
    if c.USE_CHAR_EVENTS then s1
    else if Key_IsDown s1 c.K_CTRL = true ∨ Key_IsDown s1 c.K_ALT = true then s1
    else
      let key1 := keypad_char c key
      if key1 < 32 ∨ key1 ≥ 127 then s1
      else
        let key2 := if Key_IsDown s1 c.K_SHIFT = true then s1.keyshift key1 else key1
        if s1.key_dest &&& c.KEY_CONSOLE ≠ 0 then call s1 (Call.Char_Console key2)
        else if s1.key_dest &&& c.KEY_MENU ≠ 0 then call s1 (Call.UI_CharEvent key2)
        else if s1.key_dest &&& c.KEY_MESSAGE ≠ 0 then call s1 (Call.Char_Message key2)
        else s1

/-- The hardcoded menu key: the body of `if (key == K_ESCAPE)`. -/
def Key_Event_escape (c : Consts) (key : Nat) (down : Bool) (s : Client) : Client :=
  if down = false then s
  else if s.key_dest = c.KEY_GAME ∧ s.stat_layouts ≠ 0 ∧ s.demo_playback = false then
    if s.key_repeats key = 2 then call s (Call.UI_OpenMenu Menu.UIMENU_GAME)
    else if s.key_repeats key = 1 then call s (Call.CL_ClientCommand "putaway".toList)
    else s
  else if s.key_repeats key > 1 then s
  else if s.key_dest &&& c.KEY_CONSOLE ≠ 0 then
    if s.cls_state < c.ca_active ∧ s.key_dest &&& c.KEY_MENU = 0 then
      call s (Call.UI_OpenMenu Menu.UIMENU_MAIN)
    else call s (Call.Con_Close true)
  else if s.key_dest &&& c.KEY_MENU ≠ 0 then call s (Call.UI_Keydown key)
  else if s.key_dest &&& c.KEY_MESSAGE ≠ 0 then call s (Call.Key_Message key)
  else if s.cls_state = c.ca_active then call s (Call.UI_OpenMenu Menu.UIMENU_GAME)
  else call s (Call.UI_OpenMenu Menu.UIMENU_MAIN)

/-- The down/up bookkeeping of `Key_Event` ("track if any key is down for
BUTTON_ANY"). -/
def Key_Event_track (key : Nat) (down : Bool) (s : Client) : Client :=
  if down then
    { s with keydown := upd s.keydown key true,
             anykeydown := if s.key_repeats key = 1 then s.anykeydown + 1 else s.anykeydown }
  else
    { s with keydown := upd s.keydown key false,
             anykeydown := if s.anykeydown - 1 < 0 then 0 else s.anykeydown - 1 }

/-- The "hack for demo freelook in windowed mode" of `Key_Event`. -/
def Key_Event_freelook (c : Consts) (key : Nat) (s : Client) : Client :=
  if s.key_dest = c.KEY_GAME ∧ s.demo_playback = true ∧ key = c.K_SHIFT then
    call s Call.IN_Activate
  else s

/-- The routing of `Key_Event` after the bookkeeping: through the binding, or
on to the console, menu or message line. -/
def Key_Event_dispatch (c : Consts) (key : Nat) (down : Bool) (time : Nat) (s : Client) :
    Client :=
  if s.key_dest = c.KEY_GAME
      ∨ (s.key_dest &&& c.KEY_CONSOLE ≠ 0 ∧ s.consolekeys key = false)
      ∨ (s.key_dest &&& c.KEY_MENU ≠ 0 ∧ s.menubound key = true) then
    Key_Event_binding c key down time s
  else Key_Event_surface c key down s

/-- `Key_Event` from the console-key override on: the hardcoded keys, then
the bookkeeping and the routing. -/
def Key_Event_route (c : Consts) (key : Nat) (down : Bool) (time : Nat) (s : Client) : Client :=
  -- console key is hardcoded (96 is the backtick, 126 the tilde)
  if Key_IsDown s c.K_SHIFT = false ∧ (key = 96 ∨ key = 126) then
    if down then call s Call.Con_ToggleConsole_f else s
  -- Alt+Enter is hardcoded
  else if Key_IsDown s c.K_ALT = true ∧ key = c.K_ENTER then
    if down then call s Call.VID_ToggleFullscreen else s
  -- menu key is hardcoded
  else if key = c.K_ESCAPE then Key_Event_escape c key down s
  else
    Key_Event_dispatch c key down time (Key_Event_freelook c key (Key_Event_track key down s))

/-- The hint `Key_Event` prints when an unbound mouse key goes down. -/
def Key_Event_hint (c : Consts) (key : Nat) (s : Client) : Client :=
  if key ≥ c.K_MOUSEFIRST ∧ s.keybindings key = none ∧ s.consolekeys key = false then
    call s (Call.Com_Printf_unbound (Key_KeynumToString c key))
  else s

/-- The test of `Key_Event` for an autorepeat that is ignored; `s` is the
state after the repeat counter was incremented. -/
def ignored_autorepeat (c : Consts) (key : Nat) (s : Client) : Prop :=
  s.key_dest &&& (c.KEY_CONSOLE ||| c.KEY_MESSAGE ||| c.KEY_MENU) = 0
    ∧ key ≠ c.K_BACKSPACE ∧ key ≠ c.K_PAUSE ∧ key ≠ c.K_ESCAPE
    ∧ key ≠ c.K_PGUP ∧ key ≠ c.K_KP_PGUP ∧ key ≠ c.K_PGDN ∧ key ≠ c.K_KP_PGDN
    ∧ s.key_repeats key > 1

instance (c : Consts) (key : Nat) (s : Client) : Decidable (ignored_autorepeat c key s) := by
  unfold ignored_autorepeat
  exact inferInstance

/-- `Key_Event` from the auto-repeat update on. -/
def Key_Event_repeat (c : Consts) (key : Nat) (down : Bool) (time : Nat) (s : Client) : Client :=
  if down then
    let s1 := { s with key_repeats := upd s.key_repeats key (s.key_repeats key + 1) }
    if ignored_autorepeat c key s1 then s1
    else Key_Event_route c key down time (Key_Event_hint c key s1)
  else
    Key_Event_route c key down time { s with key_repeats := upd s.key_repeats key 0 }

/-- `Key_Event`.  A key of 256 or more is a fatal error; an armed wait
callback sees a key-down event first and may swallow it. -/
def Key_Event (c : Consts) (w : WaitEnv) (key : Nat) (down : Bool) (time : Nat) (s : Client) :
    Except Fatal Client :=
  if key ≥ 256 then Except.error Fatal.bad_key
  else
    match s.key_wait_cb with
    | some cb =>
      if down then
        let r := w cb s.key_wait_arg key s
        if r.1 = false then Except.ok r.2
        else Except.ok (Key_Event_repeat c key down time r.2)
      else Except.ok (Key_Event_repeat c key down time s)
    | none => Except.ok (Key_Event_repeat c key down time s)

/-! ## Key_ClearStates and Key_SetDest -/

/-- The loop of `Key_ClearStates`: `n` iterations starting at key `i`. -/
def Key_ClearStates_loop (c : Consts) (w : WaitEnv) : Nat → Nat → Client → Except Fatal Client
  | 0, _, s => Except.ok s
  | n + 1, i, s =>
    let r := if s.keydown i = true ∨ s.key_repeats i ≠ 0 then Key_Event c w i false 0 s
             else Except.ok s
    match r with
    | Except.error e => Except.error e
    | Except.ok s1 =>
      Key_ClearStates_loop c w n (i + 1)
        { s1 with keydown := upd s1.keydown i false, key_repeats := upd s1.key_repeats i 0 }

/-- `Key_ClearStates`. -/
def Key_ClearStates (c : Consts) (w : WaitEnv) (s : Client) : Except Fatal Client :=
  match Key_ClearStates_loop c w 256 0 s with
  | Except.error e => Except.error e
  | Except.ok s1 => Except.ok { s1 with anykeydown := 0 }

/-- The destination `Key_SetDest` really switches to: the console is forced
while not connected and neither menu nor console is asked for. -/
def effective_dest (c : Consts) (s : Client) (dest : Nat) : Nat :=
  if s.cls_state < c.ca_active ∧ dest &&& (c.KEY_MENU ||| c.KEY_CONSOLE) = 0 then
    dest ||| c.KEY_CONSOLE
  else dest

/-- `Key_SetDest`. -/
def Key_SetDest (c : Consts) (w : WaitEnv) (dest0 : Nat) (s : Client) : Except Fatal Client :=
  let dest := effective_dest c s dest0
  let diff := s.key_dest ^^^ dest
  let r := if diff &&& c.KEY_CONSOLE ≠ 0 ∧ dest &&& c.KEY_CONSOLE ≠ 0 then Key_ClearStates c w s
           else Except.ok s
  match r with
  | Except.error e => Except.error e
  | Except.ok s1 =>
    let s2 := { s1 with key_dest := dest }
    if diff &&& (c.KEY_CONSOLE ||| c.KEY_MENU) ≠ 0 then
      Except.ok (call (call s2 Call.IN_Activate) Call.CL_CheckForPause)
    else Except.ok s2

/-! ## Sequences of operations -/

/-- The operations that drive the key subsystem from outside. -/
inductive Op where
  /-- `Key_Event(key, down, time)` -/
  | event (key : Nat) (down : Bool) (time : Nat)
  /-- `Key_ClearStates()` -/
  | clear
  /-- `Key_SetDest(dest)` -/
  | dest (dest : Nat)
  /-- `Key_SetBinding(keynum, binding)` -/
  | bind (keynum : Int) (binding : Option Text)
  /-- `Key_Init()` -/
  | init
  /-- the rest of the client changes the fields of `cls` and `cl` that
  `keys.c` only reads -/
  | world (cls_state stat_layouts : Int) (demo_playback : Bool)

/-- One operation. -/
def step (c : Consts) (w : WaitEnv) (op : Op) (s : Client) : Except Fatal Client :=
  match op with
  | Op.event key down time => Key_Event c w key down time s
  | Op.clear => Key_ClearStates c w s
  | Op.dest dest => Key_SetDest c w dest s
  | Op.bind keynum binding => Except.ok (Key_SetBinding s keynum binding)
  | Op.init => Except.ok (Key_Init c s)
  | Op.world a b d =>
    Except.ok { s with cls_state := a, stat_layouts := b, demo_playback := d }

/-- A sequence of operations, first to last; it stops at a fatal error. -/
def run (c : Consts) (w : WaitEnv) : List Op → Client → Except Fatal Client
  | [], s => Except.ok s
  | op :: ops, s =>
    match step c w op s with
    | Except.error e => Except.error e
    | Except.ok s1 => run c w ops s1

/-- A state the program can be in: the result of some sequence of operations
on the all-zero state. -/
def Reachable (c : Consts) (w : WaitEnv) (s : Client) : Prop :=
  ∃ ops : List Op, run c w ops Client.zero = Except.ok s

/-- A wait environment for examples: every callback accepts the key and
leaves the state alone. -/
def acceptAll : WaitEnv := fun _ _ _ s => (true, s)

/-- The part of the state that `Key_Event` only reads. -/
def Client.config (s : Client) :=
  (s.key_wait_cb, s.key_wait_arg, s.keybindings, s.consolekeys, s.menubound, s.keyshift,
    s.key_overstrike, s.key_dest, s.cls_state, s.stat_layouts, s.demo_playback)

/-- The key is one that a hardcoded override of `Key_Event` takes in state
`s`: the console key while SHIFT is up, ENTER while ALT is down, or ESCAPE. -/
def hardcoded (c : Consts) (key : Nat) (s : Client) : Prop :=
  (Key_IsDown s c.K_SHIFT = false ∧ (key = 96 ∨ key = 126))
    ∨ (Key_IsDown s c.K_ALT = true ∧ key = c.K_ENTER)
    ∨ key = c.K_ESCAPE

/-- The state with further calls recorded. -/
def more_calls (s : Client) (l : List Call) : Client := { s with calls := s.calls ++ l }

/-- The state in which `Key_Event` routes a key-down event that is neither
an ignored autorepeat nor taken by a hardcoded override; `l` are the calls
recorded on the way. -/
def tracked_down (s : Client) (key : Nat) (l : List Call) : Client :=
  { s with key_repeats := upd s.key_repeats key (s.key_repeats key + 1),
           keydown := upd s.keydown key true,
           anykeydown := if s.key_repeats key + 1 = 1 then s.anykeydown + 1 else s.anykeydown,
           calls := s.calls ++ l }

/-- The state in which `Key_Event` routes a key-up event that no hardcoded
override takes; `l` are the calls recorded on the way. -/
def tracked_up (s : Client) (key : Nat) (l : List Call) : Client :=
  { s with key_repeats := upd s.key_repeats key 0,
           keydown := upd s.keydown key false,
           anykeydown := if s.anykeydown - 1 < 0 then 0 else s.anykeydown - 1,
           calls := s.calls ++ l }

/-- The key tables and the counter of keys held down. -/
def Client.keytab (s : Client) := (s.keydown, s.key_repeats, s.anykeydown)

/-- The release command `Key_Event` queues for the binding slot `slot` when
`key` goes up: empty unless the slot holds a button binding. -/
def release_cmd (c : Consts) (s : Client) (slot key time : Nat) : Text :=
  match s.keybindings slot with
  | some kb => if kb.head? = some '+' then release_text c kb key time else []
  | none => []

/-- The key-down of `key` is looked up on its shifted alias: the platform
sends no character events, SHIFT is down, the alias differs from the key
and is bound. -/
def remapped (c : Consts) (key : Nat) (s : Client) : Prop :=
  c.USE_CHAR_EVENTS = false ∧ Key_IsDown s c.K_SHIFT = true ∧ s.keyshift key ≠ key
    ∧ (s.keybindings (s.keyshift key)).isSome

/-- Pressing `key` in state `s` is looked up on the shifted alias of the key:
SHIFT is held (or is the key itself), the alias differs from the key and is
bound, and the platform sends no character events. -/
def shift_remaps (c : Consts) (key : Nat) (s : Client) : Prop :=
  c.USE_CHAR_EVENTS = false ∧ (Key_IsDown s c.K_SHIFT = true ∨ key = c.K_SHIFT)
    ∧ s.keyshift key ≠ key ∧ (s.keybindings (s.keyshift key)).isSome

/-- The release commands `Key_Event` queues when `key` goes up and its event
reaches the binding: for the key, then for its shifted alias. -/
def release_cmds (c : Consts) (s : Client) (key time : Nat) : Text :=
  release_cmd c s key key time
    ++ (if c.USE_CHAR_EVENTS = false ∧ s.keyshift key ≠ key then
          release_cmd c s (s.keyshift key) key time else [])

/-- The keys that a hardcoded override of `Key_Event` can take: backtick,
tilde, ENTER and ESCAPE. -/
def override_key (c : Consts) (key : Nat) : Prop :=
  key = 96 ∨ key = 126 ∨ key = c.K_ENTER ∨ key = c.K_ESCAPE

/-- The invariant of the key tables: no wait hook is armed, the counter of
keys held down is not negative, and a key that is no override key and is up
has repeat counter 0. -/
def KeyInv (c : Consts) (s : Client) : Prop :=
  s.key_wait_cb = none ∧ 0 ≤ s.anykeydown
    ∧ ∀ k, ¬ override_key c k → s.keydown k = false → s.key_repeats k = 0

/-! ## Example states -/

/-- The state after program start for given header constants: the all-zero
state with the destination set to the game, after `Key_Init`. -/
def initialGame (c : Consts) : Client :=
  Key_Init c { Client.zero with key_dest := c.KEY_GAME }

/-- A connected client in the game: the all-zero state after `Key_Init`,
connection state `ca_active`, destination `KEY_GAME`. -/
def gameClient : Client :=
  Key_Init sampleConsts
    { Client.zero with cls_state := sampleConsts.ca_active, key_dest := sampleConsts.KEY_GAME }

/-- `gameClient` with the first mouse button bound to `+attack`. -/
def attackClient : Client :=
  Key_SetBinding gameClient sampleConsts.K_MOUSE1 (some "+attack".toList)

/-- `gameClient` with `a` bound to the plain command `say hi` and its shifted
alias `A` bound to the button command `+back`. -/
def sayClient : Client :=
  Key_SetBinding (Key_SetBinding gameClient 97 (some "say hi".toList)) 65
    (some "+back".toList)

/-- `gameClient` with the game overlay (help computer or inventory) shown. -/
def overlayClient : Client := { gameClient with stat_layouts := 1 }

/-! ## Enumerating, writing and editing bindings -/

/-- The loop of `Key_EnumBindings`: `n` iterations starting at `key`. -/
def Key_EnumBindings_loop (s : Client) (binding : Text) : Nat → Nat → Int
  | 0, _ => -1
  | n + 1, key =>
    match s.keybindings key with
    | some kb =>
      if Q_stricmp_eq kb binding then (key : Int)
      else Key_EnumBindings_loop s binding n (key + 1)
    | none => Key_EnumBindings_loop s binding n (key + 1)

/-- `Key_EnumBindings`: a negative start is raised to 0, the loop runs while
the key is below 256. -/
def Key_EnumBindings (s : Client) (key : Int) (binding : Text) : Int :=
  let key0 : Nat := if key < 0 then 0 else key.toNat
  Key_EnumBindings_loop s binding (256 - key0) key0

/-- A caller of `Key_EnumBindings` that asks again from the key after the
last answer until the answer is `-1`, and collects the answers; `n` bounds
the number of calls. -/
def enum_all (s : Client) (binding : Text) : Nat → Int → List Int
  | 0, _ => []
  | n + 1, start =>
    let r := Key_EnumBindings s start binding
    if r = -1 then [] else r :: enum_all s binding n (r + 1)

/-- The key is bound to a text that `Q_stricmp` finds equal to `binding`. -/
def bound_to (s : Client) (binding : Text) (key : Nat) : Bool :=
  match s.keybindings key with
  | some kb => Q_stricmp_eq kb binding
  | none => false

/-- The double quote character. -/
def dquote : Char := Char.ofNat 34

/-- The line `Key_WriteBindings` prints for key `i` bound to `kb`: the format
`bind %s "%s"` and a newline, with the name of the key and the text. -/
def bind_line (c : Consts) (i : Nat) (kb : Text) : Text :=
  "bind ".toList ++ Key_KeynumToString c i ++ [' ', dquote] ++ kb ++ [dquote, '\n']

/-- The loop of `Key_WriteBindings`: `n` iterations starting at key `i`; the
result is the text given to `FS_FPrintf`, in order. -/
def Key_WriteBindings_loop (c : Consts) (s : Client) : Nat → Nat → Text
  | 0, _ => []
  | n + 1, i =>
    (match s.keybindings i with
      | some kb => if kb ≠ [] then bind_line c i kb else []
      | none => [])
    ++ Key_WriteBindings_loop c s n (i + 1)

/-- `Key_WriteBindings`: the text written to the file. -/
def Key_WriteBindings (c : Consts) (s : Client) : Text := Key_WriteBindings_loop c s 256 0

/-- `Com_Printf` with the formatted text. -/
def Com_Printf (s : Client) (text : Text) : Client := call s (Call.Com_Printf text)

/-- The loop of `Key_Unbindall_f`. -/
def Key_Unbindall_loop : Nat → Nat → Client → Client
  | 0, _, s => s
  | n + 1, i, s =>
    Key_Unbindall_loop n (i + 1)
      (if (s.keybindings i).isSome then Key_SetBinding s i none else s)

/-- `Key_Unbindall_f`, the command `unbindall`. -/
def Key_Unbindall_f (s : Client) : Client := Key_Unbindall_loop 256 0 s

/-- A wait environment for examples: every callback binds the key to `+use`
and refuses it; it does not call `Key_WaitKey`. -/
def bindHook : WaitEnv := fun _ _ key s => (false, Key_SetBinding s key (some "+use".toList))

/-- `gameClient` with key 10 bound to `JUMP`. -/
def jumpClient : Client := Key_SetBinding gameClient 10 (some "JUMP".toList)

/-- The line, if any, that `Key_WriteBindings` writes for key `i`: one for a
key whose bound text is non-null and non-empty. -/
def written_line (c : Consts) (s : Client) (i : Nat) : Option Text :=
  match s.keybindings i with
  | some kb => if kb ≠ [] then some (bind_line c i kb) else none
  | none => none

/-- `gameClient` with the wait callback 1 armed by `Key_WaitKey`. -/
def waitingClient : Client := Key_WaitKey gameClient (some 1) 0

/-- `sampleConsts` for a target on which plain `char` is unsigned. -/
def unsignedCharConsts : Consts := { sampleConsts with CHAR_SIGNED := false }


/-! ## Theorems -/

/-! ### Basic facts -/

theorem char_ofNat_toNat (n : Nat) (h : n < 128) : (Char.ofNat n).toNat = n := by
  interval_cases n <;> rfl

theorem char_to_int_ascii (c : Consts) (n : Nat) (h : n < 128) :
    char_to_int c (Char.ofNat n) = (n : Int) := by
  unfold char_to_int
  rw [char_ofNat_toNat n h]
  have : ¬ (128 ≤ n) := by omega
  simp [this]

theorem as_int_small (t : Nat) (h : t < 2 ^ 31) : as_int t = (t : Int) := by
  unfold as_int
  have h1 : t % 2 ^ 32 = t := Nat.mod_eq_of_lt (by omega)
  rw [h1, if_pos h]

theorem fmt_i_nat (n : Nat) : fmt_i (n : Int) = decimal n := by
  unfold fmt_i
  rw [if_neg (by omega)]
  simp

theorem fmt_i_small (t : Nat) (h : t < 2 ^ 31) : fmt_i (as_int t) = decimal t := by
  rw [as_int_small t h, fmt_i_nat]

theorem fmt_i_key (k : Nat) (h : k < 256) : fmt_i (as_int k) = decimal k :=
  fmt_i_small k (by omega)

theorem Key_IsDown_nat (s : Client) (k : Nat) :
    Key_IsDown s (k : Int) = if k > 255 then false else s.keydown k := by
  unfold Key_IsDown
  have h0 : ¬ ((k : Int) < 0) := by omega
  by_cases h : k > 255
  · have : (k : Int) > 255 := by omega
    simp [h, this]
  · have : ¬ ((k : Int) > 255) := by omega
    simp [h, this, h0]

theorem Key_Event_no_hook (c : Consts) (w : WaitEnv) (key : Nat) (down : Bool) (time : Nat)
    (s : Client) (hk : key < 256) (hw : s.key_wait_cb = none) :
    Key_Event c w key down time s = Except.ok (Key_Event_repeat c key down time s) := by
  have : ¬ key ≥ 256 := by omega
  simp [Key_Event, this, hw]

theorem Key_Event_up (c : Consts) (w : WaitEnv) (key : Nat) (time : Nat)
    (s : Client) (hk : key < 256) :
    Key_Event c w key false time s = Except.ok (Key_Event_repeat c key false time s) := by
  have : ¬ key ≥ 256 := by omega
  simp only [Key_Event, this, if_false]
  cases s.key_wait_cb <;> simp

/-! ### What each stage of `Key_Event` leaves alone -/

theorem call_config (s : Client) (x : Call) : (call s x).config = s.config := rfl

theorem Key_Event_binding_config (c : Consts) (key : Nat) (down : Bool) (time : Nat)
    (s : Client) : (Key_Event_binding c key down time s).config = s.config := by
  unfold Key_Event_binding release_binding
  repeat' (first | rfl | split | dsimp only)

theorem Key_Event_surface_config (c : Consts) (key : Nat) (down : Bool) (s : Client) :
    (Key_Event_surface c key down s).config = s.config := by
  unfold Key_Event_surface
  repeat' (first | rfl | split | dsimp only)

theorem Key_Event_escape_config (c : Consts) (key : Nat) (down : Bool) (s : Client) :
    (Key_Event_escape c key down s).config = s.config := by
  unfold Key_Event_escape
  repeat' (first | rfl | split)

theorem Key_Event_track_config (key : Nat) (down : Bool) (s : Client) :
    (Key_Event_track key down s).config = s.config := by
  unfold Key_Event_track
  split <;> rfl

theorem Key_Event_freelook_config (c : Consts) (key : Nat) (s : Client) :
    (Key_Event_freelook c key s).config = s.config := by
  unfold Key_Event_freelook
  split <;> rfl

theorem Key_Event_dispatch_config (c : Consts) (key : Nat) (down : Bool) (time : Nat)
    (s : Client) : (Key_Event_dispatch c key down time s).config = s.config := by
  unfold Key_Event_dispatch
  split
  · exact Key_Event_binding_config c key down time s
  · exact Key_Event_surface_config c key down s

theorem Key_Event_route_config (c : Consts) (key : Nat) (down : Bool) (time : Nat)
    (s : Client) : (Key_Event_route c key down time s).config = s.config := by
  unfold Key_Event_route
  split
  · split <;> rfl
  · split
    · split <;> rfl
    · split
      · exact Key_Event_escape_config c key down s
      · rw [Key_Event_dispatch_config, Key_Event_freelook_config, Key_Event_track_config]

theorem Key_Event_hint_config (c : Consts) (key : Nat) (s : Client) :
    (Key_Event_hint c key s).config = s.config := by
  unfold Key_Event_hint
  split <;> rfl

theorem Key_Event_repeat_config (c : Consts) (key : Nat) (down : Bool) (time : Nat)
    (s : Client) : (Key_Event_repeat c key down time s).config = s.config := by
  unfold Key_Event_repeat
  split
  · dsimp only
    split
    · rfl
    · rw [Key_Event_route_config, Key_Event_hint_config]
      rfl
  · rw [Key_Event_route_config]
    rfl


theorem Key_Event_hint_calls (c : Consts) (key : Nat) (s : Client) :
    ∃ l, Key_Event_hint c key s = more_calls s l := by
  unfold Key_Event_hint
  split
  · exact ⟨_, rfl⟩
  · exact ⟨[], by simp [more_calls]⟩

theorem Key_Event_freelook_calls (c : Consts) (key : Nat) (s : Client) :
    ∃ l, Key_Event_freelook c key s = more_calls s l := by
  unfold Key_Event_freelook
  split
  · exact ⟨_, rfl⟩
  · exact ⟨[], by simp [more_calls]⟩

theorem Key_Event_route_tracked (c : Consts) (key : Nat) (down : Bool) (time : Nat)
    (s : Client) (h : ¬ hardcoded c key s) :
    ∃ l, Key_Event_route c key down time s
      = Key_Event_dispatch c key down time (more_calls (Key_Event_track key down s) l) := by
  unfold hardcoded at h
  push_neg at h
  obtain ⟨l, hl⟩ := Key_Event_freelook_calls c key (Key_Event_track key down s)
  refine ⟨l, ?_⟩
  unfold Key_Event_route
  rw [if_neg (by tauto), if_neg (by tauto), if_neg h.2.2, hl]

theorem Key_Event_repeat_down_tracked (c : Consts) (key : Nat) (time : Nat) (s : Client)
    (ha : ¬ ignored_autorepeat c key
      { s with key_repeats := upd s.key_repeats key (s.key_repeats key + 1) })
    (h : ¬ hardcoded c key s) :
    ∃ l, Key_Event_repeat c key true time s
      = Key_Event_dispatch c key true time (tracked_down s key l) := by
  obtain ⟨l1, hl1⟩ := Key_Event_hint_calls c key
    { s with key_repeats := upd s.key_repeats key (s.key_repeats key + 1) }
  obtain ⟨l2, hl2⟩ := Key_Event_route_tracked c key true time
    (more_calls { s with key_repeats := upd s.key_repeats key (s.key_repeats key + 1) } l1) h
  refine ⟨l1 ++ l2, ?_⟩
  simp only [Key_Event_repeat, if_true, if_neg ha, hl1, hl2]
  simp [more_calls, Key_Event_track, tracked_down, upd]

theorem Key_Event_repeat_up_tracked (c : Consts) (key : Nat) (time : Nat) (s : Client)
    (h : ¬ hardcoded c key s) :
    ∃ l, Key_Event_repeat c key false time s
      = Key_Event_dispatch c key false time (tracked_up s key l) := by
  obtain ⟨l2, hl2⟩ := Key_Event_route_tracked c key false time
    { s with key_repeats := upd s.key_repeats key 0 } h
  refine ⟨l2, ?_⟩
  simp only [Key_Event_repeat, hl2]
  simp [more_calls, Key_Event_track, tracked_up]

theorem config_fields {s s1 : Client} (h : s1.config = s.config) :
    s1.key_wait_cb = s.key_wait_cb ∧ s1.key_wait_arg = s.key_wait_arg
      ∧ s1.keybindings = s.keybindings ∧ s1.consolekeys = s.consolekeys
      ∧ s1.menubound = s.menubound ∧ s1.keyshift = s.keyshift
      ∧ s1.key_overstrike = s.key_overstrike ∧ s1.key_dest = s.key_dest
      ∧ s1.cls_state = s.cls_state ∧ s1.stat_layouts = s.stat_layouts
      ∧ s1.demo_playback = s.demo_playback := by
  simpa [Client.config] using h

theorem Key_Event_binding_keytab (c : Consts) (key : Nat) (down : Bool) (time : Nat)
    (s : Client) : (Key_Event_binding c key down time s).keytab = s.keytab := by
  unfold Key_Event_binding release_binding
  repeat' (first | rfl | split | dsimp only)

theorem Key_Event_binding_calls (c : Consts) (key : Nat) (down : Bool) (time : Nat)
    (s : Client) : (Key_Event_binding c key down time s).calls = s.calls := by
  unfold Key_Event_binding release_binding
  repeat' (first | rfl | split | dsimp only)

theorem Key_Event_surface_keytab (c : Consts) (key : Nat) (down : Bool) (s : Client) :
    (Key_Event_surface c key down s).keytab = s.keytab := by
  unfold Key_Event_surface
  repeat' (first | rfl | split | dsimp only)

theorem Key_Event_surface_cmd_buffer (c : Consts) (key : Nat) (down : Bool) (s : Client) :
    (Key_Event_surface c key down s).cmd_buffer = s.cmd_buffer := by
  unfold Key_Event_surface
  repeat' (first | rfl | split | dsimp only)

theorem Key_Event_escape_keytab (c : Consts) (key : Nat) (down : Bool) (s : Client) :
    (Key_Event_escape c key down s).keytab = s.keytab := by
  unfold Key_Event_escape
  repeat' (first | rfl | split)

theorem Key_Event_escape_cmd_buffer (c : Consts) (key : Nat) (down : Bool) (s : Client) :
    (Key_Event_escape c key down s).cmd_buffer = s.cmd_buffer := by
  unfold Key_Event_escape
  repeat' (first | rfl | split)

theorem Key_Event_dispatch_keytab (c : Consts) (key : Nat) (down : Bool) (time : Nat)
    (s : Client) : (Key_Event_dispatch c key down time s).keytab = s.keytab := by
  unfold Key_Event_dispatch
  split
  · exact Key_Event_binding_keytab c key down time s
  · exact Key_Event_surface_keytab c key down s

theorem keytab_fields {s1 : Client} {a : Nat → Bool} {b : Nat → Int} {n : Int}
    (h : s1.keytab = (a, b, n)) :
    s1.keydown = a ∧ s1.key_repeats = b ∧ s1.anykeydown = n := by
  simpa [Client.keytab] using h

theorem Key_Event_dispatch_game (c : Consts) (key : Nat) (down : Bool) (time : Nat)
    (s : Client) (h : s.key_dest = c.KEY_GAME) :
    Key_Event_dispatch c key down time s = Key_Event_binding c key down time s := by
  unfold Key_Event_dispatch
  rw [if_pos (Or.inl h)]

/-! ### The text queued through a binding -/

theorem release_binding_cmd_buffer (c : Consts) (slot key time : Nat) (s : Client) :
    (release_binding c slot key time s).cmd_buffer
      = s.cmd_buffer ++ release_cmd c s slot key time := by
  unfold release_binding release_cmd
  split
  · split <;> simp [Cbuf_AddText]
  · simp

theorem release_binding_config (c : Consts) (slot key time : Nat) (s : Client) :
    (release_binding c slot key time s).config = s.config := by
  unfold release_binding
  repeat' (first | rfl | split)

theorem release_cmd_congr (c : Consts) (s s1 : Client) (slot key time : Nat)
    (h : s1.keybindings = s.keybindings) :
    release_cmd c s1 slot key time = release_cmd c s slot key time := by
  unfold release_cmd
  rw [h]

theorem Key_Event_binding_up (c : Consts) (key time : Nat) (s : Client) :
    (Key_Event_binding c key false time s).cmd_buffer
      = s.cmd_buffer ++ release_cmd c s key key time
          ++ (if c.USE_CHAR_EVENTS = false ∧ s.keyshift key ≠ key then
                release_cmd c s (s.keyshift key) key time else []) := by
  have hc := config_fields (release_binding_config c key key time s)
  simp only [Key_Event_binding, if_true]
  rw [hc.2.2.2.2.2.1]
  split
  · rw [release_binding_cmd_buffer, release_binding_cmd_buffer,
      release_cmd_congr c s _ _ _ _ hc.2.2.1]
  · rw [release_binding_cmd_buffer]
    simp

theorem Key_Event_binding_press (c : Consts) (key time : Nat) (s : Client) (kb : Text)
    (hb : s.keybindings key = some kb) (hrep : ¬ s.key_repeats key > 1)
    (hr : ¬ remapped c key s) :
    (Key_Event_binding c key true time s).cmd_buffer
      = s.cmd_buffer ++ (if kb.head? = some '+' then press_text c kb key time
                         else kb ++ ['\n']) := by
  unfold remapped at hr
  simp only [Key_Event_binding, if_neg hrep, if_neg hr, hb]
  simp only [Bool.true_eq_false, if_false]
  split <;> simp [Cbuf_AddText]

theorem Key_Event_binding_autorepeat (c : Consts) (key time : Nat) (s : Client)
    (hrep : s.key_repeats key > 1) :
    Key_Event_binding c key true time s = s := by
  simp only [Key_Event_binding, if_pos hrep]
  simp
/-! ### Press and release of a key in the game -/

theorem remapped_of_tracked_down (c : Consts) (key : Nat) (s : Client) (l : List Call)
    (h : remapped c key (tracked_down s key l)) : shift_remaps c key s := by
  unfold remapped at h
  unfold shift_remaps
  refine ⟨h.1, ?_, h.2.2.1, h.2.2.2⟩
  have h2 := h.2.1
  rw [Key_IsDown_nat] at h2 ⊢
  simp only [tracked_down, upd] at h2
  by_cases hk : c.K_SHIFT = key
  · exact Or.inr hk.symm
  · left
    split at h2
    · exact absurd h2 (by decide)
    · rw [if_neg (by assumption)]
      simpa [hk] using h2

theorem Key_Event_repeat_press (c : Consts) (key time : Nat) (s : Client) (kb : Text)
    (hb : s.keybindings key = some kb) (hdest : s.key_dest = c.KEY_GAME)
    (hrep : s.key_repeats key = 0) (hh : ¬ hardcoded c key s)
    (hr : ¬ shift_remaps c key s) :
    (Key_Event_repeat c key true time s).cmd_buffer
        = s.cmd_buffer ++ (if kb.head? = some '+' then press_text c kb key time
                           else kb ++ ['\n'])
      ∧ (Key_Event_repeat c key true time s).keytab
        = (upd s.keydown key true, upd s.key_repeats key 1, s.anykeydown + 1) := by
  have ha : ¬ ignored_autorepeat c key
      { s with key_repeats := upd s.key_repeats key (s.key_repeats key + 1) } := by
    unfold ignored_autorepeat
    simp [upd, hrep]
  obtain ⟨l, hl⟩ := Key_Event_repeat_down_tracked c key time s ha hh
  rw [hl, Key_Event_dispatch_game c key true time _ (by simpa [tracked_down] using hdest)]
  constructor
  · rw [Key_Event_binding_press c key time _ kb (by simpa [tracked_down] using hb)
      (by simp [tracked_down, upd, hrep])
      (fun h => hr (remapped_of_tracked_down c key s l h))]
    simp [tracked_down]
  · rw [Key_Event_binding_keytab]
    simp [tracked_down, Client.keytab, hrep]

theorem Key_Event_repeat_release (c : Consts) (key time : Nat) (s : Client)
    (hdest : s.key_dest = c.KEY_GAME) (hh : ¬ hardcoded c key s) :
    (Key_Event_repeat c key false time s).cmd_buffer
        = s.cmd_buffer ++ release_cmds c s key time
      ∧ (Key_Event_repeat c key false time s).keytab
        = (upd s.keydown key false, upd s.key_repeats key 0,
            if s.anykeydown - 1 < 0 then 0 else s.anykeydown - 1) := by
  obtain ⟨l, hl⟩ := Key_Event_repeat_up_tracked c key time s hh
  rw [hl, Key_Event_dispatch_game c key false time _ (by simpa [tracked_up] using hdest)]
  constructor
  · rw [Key_Event_binding_up]
    simp [tracked_up, release_cmds, release_cmd, List.append_assoc]
  · rw [Key_Event_binding_keytab]
    simp [tracked_up, Client.keytab]
theorem take_fits (x : Text) (n : Nat) (h : x.length < n) : Q_snprintf n x = x := by
  unfold Q_snprintf
  exact List.take_of_length_le (by omega)

theorem press_release_game (c : Consts) (w : WaitEnv) (s : Client) (k t t2 : Nat)
    (rest : Text) (hk : k < 256)
    (hb : s.keybindings k = some ('+' :: rest))
    (hdest : s.key_dest = c.KEY_GAME)
    (hw : s.key_wait_cb = none)
    (hrep : s.key_repeats k = 0)
    (hesc : k ≠ c.K_ESCAPE)
    (htick : k ≠ 96 ∧ k ≠ 126)
    (halt : k = c.K_ENTER → Key_IsDown s c.K_ALT = false ∧ c.K_ALT ≠ c.K_ENTER)
    (hshift : Key_IsDown s c.K_SHIFT = false)
    (hself : c.USE_CHAR_EVENTS = false → k = c.K_SHIFT → s.keyshift k = k)
    (hfit : (('+' :: rest) ++ [' '] ++ decimal k ++ [' '] ++ fmt_i (as_int t) ++ ['\n']).length
      < c.MAX_STRING_CHARS)
    (hfit2 : (['-'] ++ rest ++ [' '] ++ decimal k ++ [' '] ++ fmt_i (as_int t2) ++ ['\n']).length
      < c.MAX_STRING_CHARS) :
    ∃ s1 s2,
      Key_Event c w k true t s = Except.ok s1
      ∧ s1.cmd_buffer
          = s.cmd_buffer
            ++ (('+' :: rest) ++ [' '] ++ decimal k ++ [' '] ++ fmt_i (as_int t) ++ ['\n'])
      ∧ Key_Event c w k false t2 s1 = Except.ok s2
      ∧ s2.cmd_buffer
          = s1.cmd_buffer
            ++ (['-'] ++ rest ++ [' '] ++ decimal k ++ [' '] ++ fmt_i (as_int t2) ++ ['\n'])
            ++ (if c.USE_CHAR_EVENTS = false ∧ s.keyshift k ≠ k then
                  release_cmd c s (s.keyshift k) k t2 else [])
      ∧ (t < 2 ^ 31 → fmt_i (as_int t) = decimal t)
      ∧ (t2 < 2 ^ 31 → fmt_i (as_int t2) = decimal t2) := by
  have hh : ¬ hardcoded c k s := by
    unfold hardcoded
    rintro (⟨_, h | h⟩ | ⟨h1, h2⟩ | h)
    · exact htick.1 h
    · exact htick.2 h
    · rw [(halt h2).1] at h1
      exact absurd h1 (by decide)
    · exact hesc h
  have hr : ¬ shift_remaps c k s := by
    unfold shift_remaps
    rintro ⟨h0, h | h, h3, _⟩
    · rw [hshift] at h
      exact absurd h (by decide)
    · exact h3 (hself h0 h)
  obtain ⟨hp1, hp2⟩ := Key_Event_repeat_press c k t s _ hb hdest hrep hh hr
  have hcfg := config_fields (Key_Event_repeat_config c k true t s)
  have hkt := keytab_fields hp2
  have hh1 : ¬ hardcoded c k (Key_Event_repeat c k true t s) := by
    unfold hardcoded
    rintro (⟨_, h | h⟩ | ⟨h1, h2⟩ | h)
    · exact htick.1 h
    · exact htick.2 h
    · have ha := halt h2
      rw [Key_IsDown_nat] at h1
      rw [Key_IsDown_nat] at ha
      rw [hkt.1] at h1
      have hne : c.K_ALT ≠ k := by rw [h2]; exact ha.2
      simp only [upd, if_neg hne] at h1
      rw [ha.1] at h1
      exact absurd h1 (by decide)
    · exact hesc h
  obtain ⟨hq1, _⟩ := Key_Event_repeat_release c k t2 (Key_Event_repeat c k true t s)
    (by rw [hcfg.2.2.2.2.2.2.2.1]; exact hdest) hh1
  refine ⟨_, _, Key_Event_no_hook c w k true t s hk hw, ?_, Key_Event_up c w k t2 _ hk, ?_,
    fmt_i_small t, fmt_i_small t2⟩
  · rw [hp1]
    simp only [List.head?_cons, if_true, press_text, fmt_i_key k hk]
    rw [take_fits _ _ hfit]
  · rw [hq1]
    simp only [release_cmds, release_cmd, hcfg.2.2.1, hcfg.2.2.2.2.2.1, hb, List.head?_cons,
      if_true, release_text, List.tail_cons, fmt_i_key k hk]
    rw [take_fits _ _ hfit2]
    simp [List.append_assoc]


/-- C1 (amended): a button binding `+rest` on key `k` in the game. With no
wait hook armed, repeat counter 0, `k` none of the hardcoded keys, SHIFT up
and both commands fitting the format buffer, the press appends exactly
`+rest <k> <time>` and a newline, and the release that follows appends
`-rest <k> <time2>` and a newline (followed by the release of the shifted
alias when that is a different key with a button binding). The key is
printed in decimal; a time is printed by `%i`, i.e. as a signed 32-bit
number, which is its decimal form for times below 2^31. -/
theorem button_press_release (c : Consts) (w : WaitEnv) (s : Client) (k t t2 : Nat)
    (rest : Text) (hk : k < 256)
    (hb : s.keybindings k = some ('+' :: rest))
    (hdest : s.key_dest = c.KEY_GAME)
    (hw : s.key_wait_cb = none)
    (hrep : s.key_repeats k = 0)
    (hesc : k ≠ c.K_ESCAPE)
    (htick : k ≠ 96 ∧ k ≠ 126)
    (halt : k = c.K_ENTER → Key_IsDown s c.K_ALT = false ∧ c.K_ALT ≠ c.K_ENTER)
    (hshift : Key_IsDown s c.K_SHIFT = false)
    (hself : c.USE_CHAR_EVENTS = false → k = c.K_SHIFT → s.keyshift k = k)
    (hfit : (('+' :: rest) ++ [' '] ++ decimal k ++ [' '] ++ fmt_i (as_int t) ++ ['\n']).length
      < c.MAX_STRING_CHARS)
    (hfit2 : (['-'] ++ rest ++ [' '] ++ decimal k ++ [' '] ++ fmt_i (as_int t2) ++ ['\n']).length
      < c.MAX_STRING_CHARS) :
    ∃ s1 s2,
      Key_Event c w k true t s = Except.ok s1
      ∧ s1.cmd_buffer
          = s.cmd_buffer
            ++ (('+' :: rest) ++ [' '] ++ decimal k ++ [' '] ++ fmt_i (as_int t) ++ ['\n'])
      ∧ Key_Event c w k false t2 s1 = Except.ok s2
      ∧ s2.cmd_buffer
          = s1.cmd_buffer
            ++ (['-'] ++ rest ++ [' '] ++ decimal k ++ [' '] ++ fmt_i (as_int t2) ++ ['\n'])
            ++ (if c.USE_CHAR_EVENTS = false ∧ s.keyshift k ≠ k then
                  release_cmd c s (s.keyshift k) k t2 else [])
      ∧ (t < 2 ^ 31 → fmt_i (as_int t) = decimal t)
      ∧ (t2 < 2 ^ 31 → fmt_i (as_int t2) = decimal t2) :=
  press_release_game c w s k t t2 rest hk hb hdest hw hrep hesc htick halt hshift hself hfit hfit2

theorem button_press_release_witness :
    ∃ s1 s2,
      Key_Event sampleConsts acceptAll 200 true 100 attackClient = Except.ok s1
      ∧ s1.cmd_buffer = attackClient.cmd_buffer ++ "+attack 200 100\n".toList
      ∧ Key_Event sampleConsts acceptAll 200 false 150 s1 = Except.ok s2
      ∧ s2.cmd_buffer = s1.cmd_buffer ++ "-attack 200 150\n".toList := by
  obtain ⟨s1, s2, h1, h2, h3, h4, _⟩ :=
    button_press_release sampleConsts acceptAll attackClient 200 100 150 "attack".toList
      (by decide) (by decide) (by decide) (by decide) (by decide) (by decide) (by decide)
      (by decide) (by decide) (by decide) (by decide) (by decide)
  refine ⟨s1, s2, h1, ?_, h3, ?_⟩
  · rw [h2]
    exact congrArg _ (by decide)
  · rw [h4, List.append_assoc]
    exact congrArg _ (by decide)
/-- C1 (counterexample): with `+attack` on the first mouse button, in the
game, no hook, counter 0, SHIFT up, a press at time 2^31 appends
`+attack 200 -2147483648`, not the decimal form of the time. -/
theorem button_press_time_counterexample :
    attackClient.keybindings 200 = some "+attack".toList
      ∧ attackClient.key_dest = sampleConsts.KEY_GAME
      ∧ attackClient.key_wait_cb = none
      ∧ attackClient.key_repeats 200 = 0
      ∧ Key_IsDown attackClient sampleConsts.K_SHIFT = false
      ∧ ∃ s1, Key_Event sampleConsts acceptAll 200 true 2147483648 attackClient = Except.ok s1
          ∧ s1.cmd_buffer = attackClient.cmd_buffer ++ "+attack 200 -2147483648\n".toList
          ∧ s1.cmd_buffer ≠ attackClient.cmd_buffer
              ++ ("+attack".toList ++ [' '] ++ decimal 200 ++ [' '] ++ decimal 2147483648
                  ++ ['\n']) :=
  ⟨by decide, by decide, by decide, by decide, by decide, _, rfl, by decide, by decide⟩
theorem not_hardcoded_after_press (c : Consts) (k : Nat) (s s1 : Client)
    (hh : ¬ hardcoded c k s) (hae : c.K_ALT ≠ c.K_ENTER)
    (hkd : s1.keydown = upd s.keydown k true) : ¬ hardcoded c k s1 := by
  unfold hardcoded at hh ⊢
  simp only [Key_IsDown_nat] at hh ⊢
  rw [hkd]
  rintro (⟨h1, h2⟩ | ⟨h1, h2⟩ | h)
  · apply hh
    left
    refine ⟨?_, h2⟩
    by_cases hs : c.K_SHIFT > 255
    · simp [hs]
    · rw [if_neg hs] at h1 ⊢
      by_cases hk : c.K_SHIFT = k
      · simp [upd, hk] at h1
      · simpa [upd, hk] using h1
  · apply hh
    right; left
    refine ⟨?_, h2⟩
    have hk : c.K_ALT ≠ k := by rw [h2]; exact hae
    by_cases hs : c.K_ALT > 255
    · simp [hs] at h1
    · rw [if_neg hs] at h1 ⊢
      simpa [upd, hk] using h1
  · exact hh (Or.inr (Or.inr h))

/-- C2 (amended): a plain binding `p` on key `k` in the game. With no wait
hook armed, repeat counter 0, `k` not taken by a hardcoded override, the
press not looked up on the shifted alias, and no button binding on a
shifted alias that differs from `k`, the press appends exactly `p` and a
newline and the release that follows appends nothing. -/
theorem plain_binding_press_release (c : Consts) (w : WaitEnv) (s : Client) (k t t2 : Nat)
    (p : Text) (hk : k < 256)
    (hb : s.keybindings k = some p) (hplain : p.head? ≠ some '+')
    (hdest : s.key_dest = c.KEY_GAME)
    (hw : s.key_wait_cb = none)
    (hrep : s.key_repeats k = 0)
    (hh : ¬ hardcoded c k s) (hae : c.K_ALT ≠ c.K_ENTER)
    (hr : ¬ shift_remaps c k s)
    (halias : c.USE_CHAR_EVENTS = false → s.keyshift k ≠ k →
      ∀ kb, s.keybindings (s.keyshift k) = some kb → kb.head? ≠ some '+') :
    ∃ s1 s2,
      Key_Event c w k true t s = Except.ok s1
      ∧ s1.cmd_buffer = s.cmd_buffer ++ p ++ ['\n']
      ∧ Key_Event c w k false t2 s1 = Except.ok s2
      ∧ s2.cmd_buffer = s1.cmd_buffer := by
  obtain ⟨hp1, hp2⟩ := Key_Event_repeat_press c k t s _ hb hdest hrep hh hr
  have hcfg := config_fields (Key_Event_repeat_config c k true t s)
  have hkt := keytab_fields hp2
  have hh1 := not_hardcoded_after_press c k s _ hh hae hkt.1
  obtain ⟨hq1, _⟩ := Key_Event_repeat_release c k t2 (Key_Event_repeat c k true t s)
    (by rw [hcfg.2.2.2.2.2.2.2.1]; exact hdest) hh1
  refine ⟨_, _, Key_Event_no_hook c w k true t s hk hw, ?_, Key_Event_up c w k t2 _ hk, ?_⟩
  · rw [hp1, if_neg hplain, List.append_assoc]
  · rw [hq1]
    simp only [release_cmds, release_cmd, hcfg.2.2.1, hcfg.2.2.2.2.2.1, hb, if_neg hplain]
    split
    · rename_i h
      cases hkb : s.keybindings (s.keyshift k) with
      | none => simp
      | some kb => simp [halias h.1 h.2 kb hkb]
    · simp

theorem plain_binding_press_release_witness :
    ∃ s1 s2,
      Key_Event sampleConsts acceptAll 97 true 10
          (Key_SetBinding gameClient 97 (some "say hi".toList)) = Except.ok s1
      ∧ s1.cmd_buffer
          = (Key_SetBinding gameClient 97 (some "say hi".toList)).cmd_buffer
            ++ "say hi".toList ++ ['\n']
      ∧ Key_Event sampleConsts acceptAll 97 false 20 s1 = Except.ok s2
      ∧ s2.cmd_buffer = s1.cmd_buffer :=
  plain_binding_press_release sampleConsts acceptAll
    (Key_SetBinding gameClient 97 (some "say hi".toList)) 97 10 20 "say hi".toList
    (by decide) (by decide) (by decide) (by decide) (by decide) (by decide)
    (by unfold hardcoded; decide) (by decide) (by unfold shift_remaps; decide)
    (by
      intro _ _ kb h
      have h0 : (Key_SetBinding gameClient 97 (some "say hi".toList)).keybindings
          ((Key_SetBinding gameClient 97 (some "say hi".toList)).keyshift 97) = none := by
        decide
      rw [h0] at h
      cases h)

/-- C2 (counterexample): `a` is bound to the plain command `say hi`, its
shifted alias `A` to the button command `+back`; in the game, with no hook,
`a` up with counter 0 and not a hardcoded key, the press of `a` appends
`say hi` but the release appends `-back 97 20`. -/
theorem plain_binding_release_counterexample :
    sayClient.keybindings 97 = some "say hi".toList
      ∧ sayClient.key_dest = sampleConsts.KEY_GAME
      ∧ sayClient.key_wait_cb = none
      ∧ sayClient.keydown 97 = false
      ∧ sayClient.key_repeats 97 = 0
      ∧ ∃ s1 s2, Key_Event sampleConsts acceptAll 97 true 10 sayClient = Except.ok s1
          ∧ s1.cmd_buffer = sayClient.cmd_buffer ++ "say hi\n".toList
          ∧ Key_Event sampleConsts acceptAll 97 false 20 s1 = Except.ok s2
          ∧ s2.cmd_buffer = s1.cmd_buffer ++ "-back 97 20\n".toList
          ∧ s2.cmd_buffer ≠ s1.cmd_buffer :=
  ⟨by decide, by decide, by decide, by decide, by decide, _, _, rfl, by decide, rfl,
    by decide, by decide⟩
/-! ### Every path through `Key_Event` -/

theorem Key_Event_route_hardcoded (c : Consts) (key : Nat) (down : Bool) (time : Nat)
    (s : Client) (h : hardcoded c key s) :
    (Key_Event_route c key down time s).keytab = s.keytab
      ∧ (Key_Event_route c key down time s).cmd_buffer = s.cmd_buffer := by
  unfold hardcoded at h
  unfold Key_Event_route
  split
  · split <;> exact ⟨rfl, rfl⟩
  · split
    · split <;> exact ⟨rfl, rfl⟩
    · rw [if_pos (by tauto)]
      exact ⟨Key_Event_escape_keytab c key down s, Key_Event_escape_cmd_buffer c key down s⟩

theorem Key_Event_repeat_down_cases (c : Consts) (key : Nat) (time : Nat) (s : Client) :
    (ignored_autorepeat c key
        { s with key_repeats := upd s.key_repeats key (s.key_repeats key + 1) }
      ∧ Key_Event_repeat c key true time s
          = { s with key_repeats := upd s.key_repeats key (s.key_repeats key + 1) })
    ∨ (hardcoded c key s
      ∧ (Key_Event_repeat c key true time s).keytab
          = (s.keydown, upd s.key_repeats key (s.key_repeats key + 1), s.anykeydown)
      ∧ (Key_Event_repeat c key true time s).cmd_buffer = s.cmd_buffer)
    ∨ (¬ ignored_autorepeat c key
          { s with key_repeats := upd s.key_repeats key (s.key_repeats key + 1) }
      ∧ ¬ hardcoded c key s
      ∧ ∃ l, Key_Event_repeat c key true time s
          = Key_Event_dispatch c key true time (tracked_down s key l)) := by
  by_cases ha : ignored_autorepeat c key
      { s with key_repeats := upd s.key_repeats key (s.key_repeats key + 1) }
  · left
    refine ⟨ha, ?_⟩
    simp only [Key_Event_repeat, if_true, if_pos ha]
  · right
    by_cases hh : hardcoded c key s
    · left
      refine ⟨hh, ?_⟩
      obtain ⟨l1, hl1⟩ := Key_Event_hint_calls c key
        { s with key_repeats := upd s.key_repeats key (s.key_repeats key + 1) }
      have hr := Key_Event_route_hardcoded c key true time
        (more_calls { s with key_repeats := upd s.key_repeats key (s.key_repeats key + 1) } l1)
        hh
      simp only [Key_Event_repeat, if_true, if_neg ha, hl1]
      exact hr
    · right
      exact ⟨ha, hh, Key_Event_repeat_down_tracked c key time s ha hh⟩

theorem Key_Event_repeat_up_cases (c : Consts) (key : Nat) (time : Nat) (s : Client) :
    (hardcoded c key s
      ∧ (Key_Event_repeat c key false time s).keytab
          = (s.keydown, upd s.key_repeats key 0, s.anykeydown)
      ∧ (Key_Event_repeat c key false time s).cmd_buffer = s.cmd_buffer)
    ∨ (¬ hardcoded c key s
      ∧ ∃ l, Key_Event_repeat c key false time s
          = Key_Event_dispatch c key false time (tracked_up s key l)) := by
  by_cases hh : hardcoded c key s
  · left
    refine ⟨hh, ?_⟩
    have hr := Key_Event_route_hardcoded c key false time
      { s with key_repeats := upd s.key_repeats key 0 } hh
    simp only [Key_Event_repeat]
    exact hr
  · right
    exact ⟨hh, Key_Event_repeat_up_tracked c key time s hh⟩

theorem Key_Event_repeat_down_key_repeats (c : Consts) (key time : Nat) (s : Client) :
    (Key_Event_repeat c key true time s).key_repeats
      = upd s.key_repeats key (s.key_repeats key + 1) := by
  rcases Key_Event_repeat_down_cases c key time s with ⟨_, h⟩ | ⟨_, h, _⟩ | ⟨_, _, l, h⟩
  · rw [h]
  · exact (keytab_fields h).2.1
  · rw [h, (keytab_fields (Key_Event_dispatch_keytab c key true time _)).2.1]
    rfl

/-- Under SHIFT the press of `a` is looked up on the alias `A` and printed
with the code 65 of the alias, while the release of `a` prints the release of
the alias binding with the code 97 of the key itself. -/
theorem shifted_press_release_codes :
    ∃ s0 s1 s2,
      Key_Event sampleConsts acceptAll 134 true 5 sayClient = Except.ok s0
      ∧ Key_Event sampleConsts acceptAll 97 true 10 s0 = Except.ok s1
      ∧ s1.cmd_buffer = s0.cmd_buffer ++ "+back 65 10\n".toList
      ∧ Key_Event sampleConsts acceptAll 97 false 20 s1 = Except.ok s2
      ∧ s2.cmd_buffer = s1.cmd_buffer ++ "-back 97 20\n".toList :=
  ⟨_, _, _, rfl, rfl, by decide, rfl, by decide⟩
/-! ### The first mouse button -/

theorem keyshift_init_high (i : Nat) (h1 : 127 ≤ i) (h2 : i < 256) : keyshift_init i = i := by
  interval_cases i <;> rfl

theorem decimal_key_length (k : Nat) (h : k < 256) : (decimal k).length ≤ 3 := by
  interval_cases k <;> decide

theorem Key_SetBinding_nat (s : Client) (k : Nat) (b : Option Text) (h : k < 256) :
    Key_SetBinding s (k : Int) b = { s with keybindings := upd s.keybindings k b } := by
  unfold Key_SetBinding
  rw [if_neg (by omega)]
  simp

/-- C5 (amended): for header constants whose `K_MOUSE1` is a key number from
127 to 255 other than ESCAPE and ENTER (and a format buffer of at least 32
bytes), starting from the initial state with destination GAME, after
`Key_SetBinding(K_MOUSE1, "+attack")` the press at time 100 appends exactly
`+attack <K_MOUSE1> 100` and the release at time 150 appends exactly
`-attack <K_MOUSE1> 150`, each with a newline, where `<K_MOUSE1>` is the
decimal key number. -/
theorem mouse1_press_release (c : Consts) (w : WaitEnv)
    (hm : 127 ≤ c.K_MOUSE1 ∧ c.K_MOUSE1 < 256)
    (hesc : c.K_MOUSE1 ≠ c.K_ESCAPE) (hent : c.K_MOUSE1 ≠ c.K_ENTER)
    (hmax : 32 ≤ c.MAX_STRING_CHARS) :
    ∃ s1 s2,
      Key_Event c w c.K_MOUSE1 true 100
          (Key_SetBinding (initialGame c) c.K_MOUSE1 (some "+attack".toList)) = Except.ok s1
      ∧ s1.cmd_buffer = "+attack ".toList ++ decimal c.K_MOUSE1 ++ " 100\n".toList
      ∧ Key_Event c w c.K_MOUSE1 false 150 s1 = Except.ok s2
      ∧ s2.cmd_buffer
          = s1.cmd_buffer ++ ("-attack ".toList ++ decimal c.K_MOUSE1 ++ " 150\n".toList) := by
  have hlen := decimal_key_length c.K_MOUSE1 hm.2
  have hks : c.USE_CHAR_EVENTS = false →
      (Key_SetBinding (initialGame c) c.K_MOUSE1 (some "+attack".toList)).keyshift c.K_MOUSE1
        = c.K_MOUSE1 := by
    intro h
    rw [Key_SetBinding_nat _ _ _ hm.2]
    simp [initialGame, Key_Init, call, h, hm.2, keyshift_init_high _ hm.1 hm.2]
  obtain ⟨s1, s2, h1, h2, h3, h4, _⟩ := press_release_game c w
    (Key_SetBinding (initialGame c) c.K_MOUSE1 (some "+attack".toList)) c.K_MOUSE1 100 150
    "attack".toList hm.2
    (by rw [Key_SetBinding_nat _ _ _ hm.2]; simp [upd])
    (by rw [Key_SetBinding_nat _ _ _ hm.2]; rfl)
    (by rw [Key_SetBinding_nat _ _ _ hm.2]; rfl)
    (by rw [Key_SetBinding_nat _ _ _ hm.2]; rfl)
    hesc (by omega) (fun h => absurd h hent)
    (by rw [Key_IsDown_nat, Key_SetBinding_nat _ _ _ hm.2]; split <;> rfl)
    (fun h _ => hks h)
    (by
      rw [show fmt_i (as_int 100) = "100".toList by decide]
      simp only [List.length_append, List.length_cons, String.toList, List.length_nil]
      simp
      omega)
    (by
      rw [show fmt_i (as_int 150) = "150".toList by decide]
      simp only [List.length_append, List.length_cons, String.toList, List.length_nil]
      simp
      omega)
  refine ⟨s1, s2, h1, ?_, h3, ?_⟩
  · rw [h2, Key_SetBinding_nat _ _ _ hm.2]
    rw [show fmt_i (as_int 100) = "100".toList by decide]
    simp [initialGame, Key_Init, call, Client.zero]
  · rw [h4]
    rw [show fmt_i (as_int 150) = "150".toList by decide]
    have hx : (if c.USE_CHAR_EVENTS = false
        ∧ (Key_SetBinding (initialGame c) c.K_MOUSE1 (some "+attack".toList)).keyshift
            c.K_MOUSE1 ≠ c.K_MOUSE1 then
        release_cmd c (Key_SetBinding (initialGame c) c.K_MOUSE1 (some "+attack".toList))
          ((Key_SetBinding (initialGame c) c.K_MOUSE1 (some "+attack".toList)).keyshift
            c.K_MOUSE1) c.K_MOUSE1 150
        else []) = [] := by
      rw [if_neg]
      rintro ⟨h, h'⟩
      exact h' (hks h)
    rw [hx]
    simp

theorem mouse1_press_release_witness :
    ∃ s1 s2,
      Key_Event sampleConsts acceptAll sampleConsts.K_MOUSE1 true 100
          (Key_SetBinding (initialGame sampleConsts) sampleConsts.K_MOUSE1
            (some "+attack".toList)) = Except.ok s1
      ∧ s1.cmd_buffer = "+attack ".toList ++ decimal sampleConsts.K_MOUSE1 ++ " 100\n".toList
      ∧ Key_Event sampleConsts acceptAll sampleConsts.K_MOUSE1 false 150 s1 = Except.ok s2
      ∧ s2.cmd_buffer
          = s1.cmd_buffer
            ++ ("-attack ".toList ++ decimal sampleConsts.K_MOUSE1 ++ " 150\n".toList) :=
  mouse1_press_release sampleConsts acceptAll (by decide) (by decide) (by decide) (by decide)

/-- C5 (counterexample): with the customary key numbers the press of the first
mouse button appends `+attack 200 100`, not `+attack 512 100`; and were
`K_MOUSE1` 512, `Key_Event` would end in the fatal error for every state. -/
theorem mouse1_code_counterexample :
    (∃ s1,
      Key_Event sampleConsts acceptAll sampleConsts.K_MOUSE1 true 100
          (Key_SetBinding (initialGame sampleConsts) sampleConsts.K_MOUSE1
            (some "+attack".toList)) = Except.ok s1
      ∧ s1.cmd_buffer = "+attack 200 100\n".toList
      ∧ s1.cmd_buffer ≠ "+attack 512 100\n".toList)
    ∧ (∀ (c : Consts) (w : WaitEnv) (s : Client) (down : Bool) (t : Nat),
        c.K_MOUSE1 = 512 → Key_Event c w c.K_MOUSE1 down t s = Except.error Fatal.bad_key) := by
  refine ⟨⟨_, rfl, by decide, by decide⟩, ?_⟩
  intro c w s down t h
  rw [h]
  simp [Key_Event]
/-! ### Key_ClearStates and Key_SetDest -/

theorem Key_Event_dispatch_up_cmd (c : Consts) (key time : Nat) (s : Client) :
    ∃ x, (Key_Event_dispatch c key false time s).cmd_buffer = s.cmd_buffer ++ x := by
  unfold Key_Event_dispatch
  split
  · rw [Key_Event_binding_up, List.append_assoc]
    exact ⟨_, rfl⟩
  · exact ⟨[], by rw [Key_Event_surface_cmd_buffer]; simp⟩

theorem Key_Event_repeat_up_frame (c : Consts) (key time : Nat) (s : Client) :
    (∀ j, j ≠ key →
        (Key_Event_repeat c key false time s).keydown j = s.keydown j
        ∧ (Key_Event_repeat c key false time s).key_repeats j = s.key_repeats j)
      ∧ ∃ x, (Key_Event_repeat c key false time s).cmd_buffer = s.cmd_buffer ++ x := by
  rcases Key_Event_repeat_up_cases c key time s with ⟨_, h1, h2⟩ | ⟨_, l, h⟩
  · have hk := keytab_fields h1
    refine ⟨fun j hj => ?_, [], by rw [h2]; simp⟩
    rw [hk.1, hk.2.1]
    simp [upd, hj]
  · have hk := keytab_fields (Key_Event_dispatch_keytab c key false time (tracked_up s key l))
    rw [h]
    refine ⟨fun j hj => ?_, ?_⟩
    · rw [hk.1, hk.2.1]
      simp [tracked_up, upd, hj]
    · obtain ⟨x, hx⟩ := Key_Event_dispatch_up_cmd c key time (tracked_up s key l)
      exact ⟨x, by rw [hx]; rfl⟩

/-- What one pass of the loop of `Key_ClearStates` does at key `i`. -/
theorem Key_ClearStates_loop_spec (c : Consts) (w : WaitEnv) (n : Nat) :
    ∀ (i : Nat) (s : Client), i + n ≤ 256 →
      ∃ s1 x, Key_ClearStates_loop c w n i s = Except.ok s1
        ∧ s1.config = s.config
        ∧ (∀ j, i ≤ j → j < i + n → s1.keydown j = false ∧ s1.key_repeats j = 0)
        ∧ (∀ j, ¬ (i ≤ j ∧ j < i + n) →
            s1.keydown j = s.keydown j ∧ s1.key_repeats j = s.key_repeats j)
        ∧ s1.cmd_buffer = s.cmd_buffer ++ x
        ∧ (∀ k rest, i ≤ k → k < i + n → s.keydown k = true → s.key_dest = c.KEY_GAME →
            s.keybindings k = some ('+' :: rest) → k ≠ 96 → k ≠ 126 → k ≠ c.K_ENTER →
            k ≠ c.K_ESCAPE →
            ∃ pre post, x = pre ++ release_text c ('+' :: rest) k 0 ++ post) := by
  induction n with
  | zero =>
    intro i s _
    refine ⟨s, [], rfl, rfl, ?_, fun j _ => ⟨rfl, rfl⟩, by simp, ?_⟩
    · intro j h1 h2
      omega
    · intro k rest h1 h2
      omega
  | succ n ih =>
    intro i s hi
    have hi256 : i < 256 := by omega
    -- the state after the optional key-up event
    obtain ⟨s0, hs0, hcfg0, hfr0, x0, hx0, hrel0⟩ :
        ∃ s0, (if s.keydown i = true ∨ s.key_repeats i ≠ 0 then Key_Event c w i false 0 s
                else Except.ok s) = Except.ok s0
          ∧ s0.config = s.config
          ∧ (∀ j, j ≠ i → s0.keydown j = s.keydown j ∧ s0.key_repeats j = s.key_repeats j)
          ∧ ∃ x0, s0.cmd_buffer = s.cmd_buffer ++ x0
            ∧ (∀ rest, s.keydown i = true → s.key_dest = c.KEY_GAME →
                s.keybindings i = some ('+' :: rest) → i ≠ 96 → i ≠ 126 → i ≠ c.K_ENTER →
                i ≠ c.K_ESCAPE →
                ∃ post, x0 = release_text c ('+' :: rest) i 0 ++ post) := by
      by_cases hc : s.keydown i = true ∨ s.key_repeats i ≠ 0
      · rw [if_pos hc, Key_Event_up c w i 0 s hi256]
        obtain ⟨hf1, x, hx⟩ := Key_Event_repeat_up_frame c i 0 s
        refine ⟨_, rfl, Key_Event_repeat_config c i false 0 s, hf1, x, hx, ?_⟩
        intro rest _ hdest hb h96 h126 hent hesc
        have hh : ¬ hardcoded c i s := by
          unfold hardcoded
          rintro (⟨_, h | h⟩ | ⟨_, h⟩ | h)
          · exact h96 h
          · exact h126 h
          · exact hent h
          · exact hesc h
        obtain ⟨hq, _⟩ := Key_Event_repeat_release c i 0 s hdest hh
        rw [hq] at hx
        have hx2 := List.append_cancel_left hx
        rw [← hx2]
        simp only [release_cmds, release_cmd, hb, List.head?_cons, if_true]
        exact ⟨_, rfl⟩
      · rw [if_neg hc]
        refine ⟨s, rfl, rfl, fun j _ => ⟨rfl, rfl⟩, [], by simp, ?_⟩
        intro rest hd
        exact absurd (Or.inl hd) hc
    obtain ⟨s1, x, h1, h2, h3, h4, h5, h6⟩ := ih (i + 1)
      { s0 with keydown := upd s0.keydown i false, key_repeats := upd s0.key_repeats i 0 }
      (by omega)
    have hcf0 := config_fields hcfg0
    refine ⟨s1, x0 ++ x, ?_, ?_, ?_, ?_, ?_, ?_⟩
    · simp only [Key_ClearStates_loop]
      rw [hs0]
      exact h1
    · rw [h2]
      exact hcfg0
    · intro j hj1 hj2
      by_cases hji : j = i
      · have := h4 j (by omega)
        rw [this.1, this.2]
        simp [upd, hji]
      · exact h3 j (by omega) (by omega)
    · intro j hj
      have hji : j ≠ i := by omega
      have := h4 j (by omega)
      rw [this.1, this.2]
      simp only [upd, if_neg hji]
      exact hfr0 j hji
    · rw [h5]
      simp only []
      rw [hx0, List.append_assoc]
    · intro k rest hk1 hk2 hkd hdest hb h96 h126 hent hesc
      by_cases hki : k = i
      · subst hki
        obtain ⟨post, hpost⟩ := hrel0 rest hkd hdest hb h96 h126 hent hesc
        refine ⟨[], post ++ x, ?_⟩
        rw [hpost]
        simp [List.append_assoc]
      · obtain ⟨pre, post, hpp⟩ := h6 k rest (by omega) (by omega)
          (by simp only [upd, if_neg hki]; rw [(hfr0 k hki).1]; exact hkd)
          (by simp only []; rw [hcf0.2.2.2.2.2.2.2.1]; exact hdest)
          (by simp only []; rw [hcf0.2.2.1]; exact hb) h96 h126 hent hesc
        refine ⟨x0 ++ pre, post, ?_⟩
        rw [hpp]
        simp [List.append_assoc]
theorem Key_ClearStates_spec (c : Consts) (w : WaitEnv) (s : Client) :
    ∃ s1 x, Key_ClearStates c w s = Except.ok s1
      ∧ s1.config = s.config
      ∧ (∀ j, j < 256 → s1.keydown j = false ∧ s1.key_repeats j = 0)
      ∧ (∀ j, 256 ≤ j → s1.keydown j = s.keydown j ∧ s1.key_repeats j = s.key_repeats j)
      ∧ s1.anykeydown = 0
      ∧ s1.cmd_buffer = s.cmd_buffer ++ x
      ∧ (∀ k rest, k < 256 → s.keydown k = true → s.key_dest = c.KEY_GAME →
          s.keybindings k = some ('+' :: rest) → k ≠ 96 → k ≠ 126 → k ≠ c.K_ENTER →
          k ≠ c.K_ESCAPE →
          ∃ pre post, x = pre ++ release_text c ('+' :: rest) k 0 ++ post) := by
  obtain ⟨s1, x, h1, h2, h3, h4, h5, h6⟩ := Key_ClearStates_loop_spec c w 256 0 s (by omega)
  refine ⟨{ s1 with anykeydown := 0 }, x, ?_, h2, ?_, ?_, rfl, h5, ?_⟩
  · simp only [Key_ClearStates]
    rw [h1]
  · intro j hj
    exact h3 j (by omega) (by omega)
  · intro j hj
    exact h4 j (by omega)
  · intro k rest hk
    exact h6 k rest (by omega) (by omega)

theorem not_hardcoded_of_not_override (c : Consts) (k : Nat) (s : Client)
    (h : ¬ override_key c k) : ¬ hardcoded c k s := by
  unfold override_key at h
  unfold hardcoded
  tauto

theorem Key_Event_repeat_down_summary (c : Consts) (key time : Nat) (s : Client) :
    (Key_Event_repeat c key true time s).key_repeats
        = upd s.key_repeats key (s.key_repeats key + 1)
      ∧ (((Key_Event_repeat c key true time s).keydown = s.keydown
            ∧ (Key_Event_repeat c key true time s).anykeydown = s.anykeydown
            ∧ (hardcoded c key s ∨ 1 < s.key_repeats key + 1))
          ∨ (¬ hardcoded c key s
            ∧ (Key_Event_repeat c key true time s).keydown = upd s.keydown key true
            ∧ (Key_Event_repeat c key true time s).anykeydown
                = if s.key_repeats key + 1 = 1 then s.anykeydown + 1 else s.anykeydown)) := by
  refine ⟨Key_Event_repeat_down_key_repeats c key time s, ?_⟩
  rcases Key_Event_repeat_down_cases c key time s with ⟨ha, h⟩ | ⟨hh, h, _⟩ | ⟨_, hh, l, h⟩
  · left
    rw [h]
    refine ⟨rfl, rfl, Or.inr ?_⟩
    unfold ignored_autorepeat at ha
    have := ha.2.2.2.2.2.2.2.2
    simpa [upd] using this
  · left
    have hk := keytab_fields h
    exact ⟨hk.1, hk.2.2, Or.inl hh⟩
  · right
    have hk := keytab_fields (Key_Event_dispatch_keytab c key true time (tracked_down s key l))
    rw [h]
    exact ⟨hh, hk.1, hk.2.2⟩

theorem Key_Event_repeat_up_summary (c : Consts) (key time : Nat) (s : Client) :
    (Key_Event_repeat c key false time s).key_repeats = upd s.key_repeats key 0
      ∧ ((hardcoded c key s
            ∧ (Key_Event_repeat c key false time s).keydown = s.keydown
            ∧ (Key_Event_repeat c key false time s).anykeydown = s.anykeydown)
          ∨ (¬ hardcoded c key s
            ∧ (Key_Event_repeat c key false time s).keydown = upd s.keydown key false
            ∧ (Key_Event_repeat c key false time s).anykeydown
                = if s.anykeydown - 1 < 0 then 0 else s.anykeydown - 1)) := by
  rcases Key_Event_repeat_up_cases c key time s with ⟨hh, h, _⟩ | ⟨hh, l, h⟩
  · have hk := keytab_fields h
    exact ⟨hk.2.1, Or.inl ⟨hh, hk.1, hk.2.2⟩⟩
  · have hk := keytab_fields (Key_Event_dispatch_keytab c key false time (tracked_up s key l))
    rw [h]
    exact ⟨hk.2.1, Or.inr ⟨hh, hk.1, hk.2.2⟩⟩

theorem KeyInv_event (c : Consts) (key : Nat) (down : Bool) (time : Nat) (s : Client)
    (hi : KeyInv c s) : KeyInv c (Key_Event_repeat c key down time s) := by
  obtain ⟨hw, ha, hinv⟩ := hi
  have hcf := config_fields (Key_Event_repeat_config c key down time s)
  refine ⟨by rw [hcf.1]; exact hw, ?_, ?_⟩
  · cases down with
    | true =>
      rcases (Key_Event_repeat_down_summary c key time s).2 with ⟨_, h, _⟩ | ⟨_, _, h⟩
      · rw [h]; exact ha
      · rw [h]; split <;> omega
    | false =>
      rcases (Key_Event_repeat_up_summary c key time s).2 with ⟨_, _, h⟩ | ⟨_, _, h⟩
      · rw [h]; exact ha
      · rw [h]; split <;> omega
  · intro k hk hkd
    cases down with
    | true =>
      obtain ⟨hr, hcase⟩ := Key_Event_repeat_down_summary c key time s
      rw [hr]
      by_cases hkk : k = key
      · subst hkk
        rcases hcase with ⟨h1, _, h3⟩ | ⟨_, h1, _⟩
        · rw [h1] at hkd
          have h0 := hinv k hk hkd
          rcases h3 with h3 | h3
          · exact absurd h3 (not_hardcoded_of_not_override c k s hk)
          · omega
        · rw [h1] at hkd
          simp [upd] at hkd
      · simp only [upd, if_neg hkk]
        apply hinv k hk
        rcases hcase with ⟨h1, _, _⟩ | ⟨_, h1, _⟩
        · rw [h1] at hkd; exact hkd
        · rw [h1] at hkd
          simpa [upd, hkk] using hkd
    | false =>
      obtain ⟨hr, hcase⟩ := Key_Event_repeat_up_summary c key time s
      rw [hr]
      by_cases hkk : k = key
      · simp [upd, hkk]
      · simp only [upd, if_neg hkk]
        apply hinv k hk
        rcases hcase with ⟨_, h1, _⟩ | ⟨_, h1, _⟩
        · rw [h1] at hkd; exact hkd
        · rw [h1] at hkd
          simpa [upd, hkk] using hkd

theorem KeyInv_clear (c : Consts) (w : WaitEnv) (s s1 : Client) (hi : KeyInv c s)
    (h : Key_ClearStates c w s = Except.ok s1) : KeyInv c s1 ∧ s1.anykeydown = 0 := by
  obtain ⟨s2, x, h1, h2, h3, h4, h5, _⟩ := Key_ClearStates_spec c w s
  rw [h1] at h
  cases h
  have hcf := config_fields h2
  refine ⟨⟨by rw [hcf.1]; exact hi.1, by rw [h5], ?_⟩, h5⟩
  intro k hk hkd
  by_cases hk256 : k < 256
  · exact (h3 k hk256).2
  · have := h4 k (by omega)
    rw [this.2]
    rw [this.1] at hkd
    exact hi.2.2 k hk hkd

theorem KeyInv_dest (c : Consts) (w : WaitEnv) (dest : Nat) (s s1 : Client) (hi : KeyInv c s)
    (h : Key_SetDest c w dest s = Except.ok s1) :
    KeyInv c s1 ∧ s1.anykeydown ≤ s.anykeydown := by
  have hof : ∀ s2 s3 : Client, KeyInv c s2 → s3.key_wait_cb = s2.key_wait_cb →
      s3.keytab = s2.keytab → KeyInv c s3 := by
    intro s2 s3 h2 hw hk
    have hkt : s3.keydown = s2.keydown ∧ s3.key_repeats = s2.key_repeats
        ∧ s3.anykeydown = s2.anykeydown := by
      simpa [Client.keytab] using hk
    refine ⟨by rw [hw]; exact h2.1, by rw [hkt.2.2]; exact h2.2.1, ?_⟩
    intro k hk hkd
    rw [hkt.2.1]
    rw [hkt.1] at hkd
    exact h2.2.2 k hk hkd
  simp only [Key_SetDest] at h
  split at h
  · rename_i e he
    cases h
  · rename_i s2 hs2
    have h2 : KeyInv c s2 ∧ s2.anykeydown ≤ s.anykeydown := by
      split at hs2
      · have := KeyInv_clear c w s s2 hi hs2
        exact ⟨this.1, by rw [this.2]; exact hi.2.1⟩
      · cases hs2
        exact ⟨hi, le_refl _⟩
    split at h
    · cases h
      exact ⟨hof s2 _ h2.1 rfl rfl, h2.2⟩
    · cases h
      exact ⟨hof s2 _ h2.1 rfl rfl, h2.2⟩
theorem KeyInv_step (c : Consts) (w : WaitEnv) (op : Op) (s s1 : Client) (hi : KeyInv c s)
    (h : step c w op s = Except.ok s1) :
    KeyInv c s1
      ∧ (s.anykeydown < s1.anykeydown →
          ∃ key time, op = Op.event key true time ∧ s1.key_repeats key = 1
            ∧ ¬ hardcoded c key s ∧ s1.keydown key = true
            ∧ s1.anykeydown = s.anykeydown + 1) := by
  cases op with
  | event key down time =>
    simp only [step] at h
    by_cases hk : key < 256
    · rw [Key_Event_no_hook c w key down time s hk hi.1] at h
      cases h
      refine ⟨KeyInv_event c key down time s hi, ?_⟩
      intro hlt
      cases down with
      | true =>
        obtain ⟨hr, hcase⟩ := Key_Event_repeat_down_summary c key time s
        rcases hcase with ⟨_, h2, _⟩ | ⟨hh, h1, h2⟩
        · rw [h2] at hlt
          exact absurd hlt (lt_irrefl _)
        · rw [h2] at hlt ⊢
          by_cases h1r : s.key_repeats key + 1 = 1
          · refine ⟨key, time, rfl, ?_, hh, ?_, ?_⟩
            · rw [hr]; simp [upd, h1r]
            · rw [h1]; simp [upd]
            · rw [if_pos h1r]
          · rw [if_neg h1r] at hlt
            exact absurd hlt (lt_irrefl _)
      | false =>
        rcases (Key_Event_repeat_up_summary c key time s).2 with ⟨_, _, h2⟩ | ⟨_, _, h2⟩
        · rw [h2] at hlt
          exact absurd hlt (lt_irrefl _)
        · rw [h2] at hlt
          have := hi.2.1
          split at hlt <;> omega
    · have : key ≥ 256 := by omega
      simp [Key_Event, this] at h
  | clear =>
    simp only [step] at h
    have := KeyInv_clear c w s s1 hi h
    refine ⟨this.1, fun hlt => ?_⟩
    have := hi.2.1
    omega
  | dest d =>
    simp only [step] at h
    have := KeyInv_dest c w d s s1 hi h
    refine ⟨this.1, fun hlt => ?_⟩
    omega
  | bind keynum binding =>
    simp only [step] at h
    cases h
    have hk : (Key_SetBinding s keynum binding).keytab = s.keytab
        ∧ (Key_SetBinding s keynum binding).key_wait_cb = s.key_wait_cb := by
      unfold Key_SetBinding
      split <;> exact ⟨rfl, rfl⟩
    have hkt : (Key_SetBinding s keynum binding).keydown = s.keydown
        ∧ (Key_SetBinding s keynum binding).key_repeats = s.key_repeats
        ∧ (Key_SetBinding s keynum binding).anykeydown = s.anykeydown := by
      simpa [Client.keytab] using hk.1
    refine ⟨⟨by rw [hk.2]; exact hi.1, by rw [hkt.2.2]; exact hi.2.1, ?_⟩, fun hlt => ?_⟩
    · intro k hk' hkd
      rw [hkt.2.1]
      rw [hkt.1] at hkd
      exact hi.2.2 k hk' hkd
    · rw [hkt.2.2] at hlt
      exact absurd hlt (lt_irrefl _)
  | init =>
    simp only [step] at h
    cases h
    exact ⟨⟨hi.1, hi.2.1, hi.2.2⟩, fun hlt => absurd hlt (lt_irrefl _)⟩
  | world a b d =>
    simp only [step] at h
    cases h
    exact ⟨⟨hi.1, hi.2.1, hi.2.2⟩, fun hlt => absurd hlt (lt_irrefl _)⟩

theorem KeyInv_run (c : Consts) (w : WaitEnv) (ops : List Op) :
    ∀ s s1 : Client, KeyInv c s → run c w ops s = Except.ok s1 → KeyInv c s1 := by
  induction ops with
  | nil =>
    intro s s1 hi h
    simp only [run] at h
    cases h
    exact hi
  | cons op ops ih =>
    intro s s1 hi h
    simp only [run] at h
    split at h
    · cases h
    · rename_i s2 hs2
      exact ih s2 s1 (KeyInv_step c w op s s2 hi hs2).1 h

theorem KeyInv_zero (c : Consts) : KeyInv c Client.zero :=
  ⟨rfl, le_refl _, fun _ _ _ => rfl⟩

theorem KeyInv_reachable (c : Consts) (w : WaitEnv) (s : Client) (h : Reachable c w s) :
    KeyInv c s := by
  obtain ⟨ops, hops⟩ := h
  exact KeyInv_run c w ops Client.zero s (KeyInv_zero c) hops

/-- C8 (amended): in every state reachable from the all-zero state by
`Key_Event`, `Key_ClearStates`, `Key_SetDest` (and `Key_SetBinding`,
`Key_Init`, changes of the connection fields), every key other than the
hardcoded keys backtick, tilde, ENTER and ESCAPE whose down flag is false
has repeat counter 0. -/
theorem keystate_invariant (c : Consts) (w : WaitEnv) (s : Client) (k : Nat)
    (h : Reachable c w s) (hk : ¬ override_key c k) (hup : s.keydown k = false) :
    s.key_repeats k = 0 :=
  (KeyInv_reachable c w s h).2.2 k hk hup

theorem keystate_invariant_witness :
    ∃ s, run sampleConsts acceptAll
        [Op.init, Op.bind 200 (some "+attack".toList), Op.event 200 true 100,
          Op.event 200 true 101, Op.event 200 false 150] Client.zero = Except.ok s
      ∧ s.keydown 200 = false ∧ s.key_repeats 200 = 0 :=
  ⟨_, rfl, by decide,
    keystate_invariant sampleConsts acceptAll _ 200
      ⟨[Op.init, Op.bind 200 (some "+attack".toList), Op.event 200 true 100,
          Op.event 200 true 101, Op.event 200 false 150], rfl⟩
      (by unfold override_key; decide) (by decide)⟩

/-- C8 (counterexample): from the all-zero state one key-down event for the
console key (backtick, code 96), or one for ESCAPE, leaves the key with its
down flag false and its repeat counter 1. -/
theorem keystate_invariant_counterexample :
    (∃ s, run sampleConsts acceptAll [Op.event 96 true 0] Client.zero = Except.ok s
        ∧ s.keydown 96 = false ∧ s.key_repeats 96 = 1)
      ∧ (∃ s, run sampleConsts acceptAll [Op.event sampleConsts.K_ESCAPE true 0] Client.zero
            = Except.ok s
          ∧ s.keydown sampleConsts.K_ESCAPE = false
          ∧ s.key_repeats sampleConsts.K_ESCAPE = 1) :=
  ⟨⟨_, rfl, by decide, by decide⟩, ⟨_, rfl, by decide, by decide⟩⟩

/-- C7: in the game with the overlay flag set, not replaying a demo, no wait
hook armed and the repeat counter of ESCAPE 0, three consecutive key-down
events for ESCAPE do this: the first records exactly the client command
`putaway`, the second exactly the opening of the game menu, the third
nothing; none of them changes the command buffer, a down flag, the counter
of keys held down or the destination. (ESCAPE is a key below 256, below the
mouse keys and none of backtick, tilde, ENTER.) -/
theorem escape_with_overlay (c : Consts) (w : WaitEnv) (s : Client) (t1 t2 t3 : Nat)
    (hkey : c.K_ESCAPE < 256) (htick : c.K_ESCAPE ≠ 96 ∧ c.K_ESCAPE ≠ 126)
    (henter : c.K_ESCAPE ≠ c.K_ENTER) (hmouse : c.K_ESCAPE < c.K_MOUSEFIRST)
    (hdest : s.key_dest = c.KEY_GAME) (hlay : s.stat_layouts ≠ 0)
    (hdemo : s.demo_playback = false) (hw : s.key_wait_cb = none)
    (hrep : s.key_repeats c.K_ESCAPE = 0) :
    ∃ s1 s2 s3,
      Key_Event c w c.K_ESCAPE true t1 s = Except.ok s1
      ∧ s1.calls = s.calls ++ [Call.CL_ClientCommand "putaway".toList]
      ∧ Key_Event c w c.K_ESCAPE true t2 s1 = Except.ok s2
      ∧ s2.calls = s1.calls ++ [Call.UI_OpenMenu Menu.UIMENU_GAME]
      ∧ Key_Event c w c.K_ESCAPE true t3 s2 = Except.ok s3
      ∧ s3.calls = s2.calls
      ∧ (s1.cmd_buffer = s.cmd_buffer ∧ s2.cmd_buffer = s.cmd_buffer
          ∧ s3.cmd_buffer = s.cmd_buffer)
      ∧ (s1.keydown = s.keydown ∧ s2.keydown = s.keydown ∧ s3.keydown = s.keydown)
      ∧ (s1.anykeydown = s.anykeydown ∧ s2.anykeydown = s.anykeydown
          ∧ s3.anykeydown = s.anykeydown)
      ∧ (s1.key_dest = c.KEY_GAME ∧ s2.key_dest = c.KEY_GAME ∧ s3.key_dest = c.KEY_GAME) := by
  have hm : ¬ (c.K_ESCAPE ≥ c.K_MOUSEFIRST) := by omega
  have step : ∀ (t : Nat) (x : Client), x.key_wait_cb = none → x.key_dest = c.KEY_GAME →
      x.stat_layouts ≠ 0 → x.demo_playback = false →
      Key_Event c w c.K_ESCAPE true t x = Except.ok
        (let n := x.key_repeats c.K_ESCAPE + 1
         let x1 := { x with key_repeats := upd x.key_repeats c.K_ESCAPE n }
         if x.key_repeats c.K_ESCAPE + 1 = 2 then call x1 (Call.UI_OpenMenu Menu.UIMENU_GAME)
         else if x.key_repeats c.K_ESCAPE + 1 = 1 then
           call x1 (Call.CL_ClientCommand "putaway".toList)
         else x1) := by
    intro t x hxw hxd hxl hxp
    rw [Key_Event_no_hook c w _ _ _ _ hkey hxw]
    simp [Key_Event_repeat, ignored_autorepeat, Key_Event_hint, Key_Event_route,
      Key_Event_escape, hm, htick.1, htick.2, henter, hxd, hxl, hxp, upd]
  refine ⟨_, _, _, step t1 s hw hdest hlay hdemo, ?_, step t2 _ ?_ ?_ ?_ ?_, ?_,
    step t3 _ ?_ ?_ ?_ ?_, ?_⟩
  all_goals simp [hrep, call, upd, hw, hdest, hlay, hdemo]

theorem escape_with_overlay_witness :
    ∃ s1 s2 s3,
      Key_Event sampleConsts acceptAll sampleConsts.K_ESCAPE true 10 overlayClient = Except.ok s1
      ∧ s1.calls = overlayClient.calls ++ [Call.CL_ClientCommand "putaway".toList]
      ∧ Key_Event sampleConsts acceptAll sampleConsts.K_ESCAPE true 11 s1 = Except.ok s2
      ∧ s2.calls = s1.calls ++ [Call.UI_OpenMenu Menu.UIMENU_GAME]
      ∧ Key_Event sampleConsts acceptAll sampleConsts.K_ESCAPE true 12 s2 = Except.ok s3
      ∧ s3.calls = s2.calls
      ∧ s3.cmd_buffer = overlayClient.cmd_buffer
      ∧ s3.keydown = overlayClient.keydown
      ∧ s3.anykeydown = overlayClient.anykeydown := by
  obtain ⟨s1, s2, s3, h1, h2, h3, h4, h5, h6, h7, h8, h9, _⟩ :=
    escape_with_overlay sampleConsts acceptAll overlayClient 10 11 12 (by decide) (by decide)
      (by decide) (by decide) (by decide) (by decide) (by decide) (by decide) (by decide)
  exact ⟨s1, s2, s3, h1, h2, h3, h4, h5, h6, h7.2.2, h8.2.2, h9.2.2⟩

/-! ### Key names -/

/-- C10: for every key code strictly between 32 and 127 the name produced by
`Key_KeynumToString` is mapped back to the same code by `Key_StringToKeynum`. -/
theorem printable_name_round_trip (c : Consts) (keynum : Int) (h1 : 32 < keynum)
    (h2 : keynum < 127) :
    Key_StringToKeynum c (some (Key_KeynumToString c keynum)) = keynum := by
  have hne : keynum ≠ -1 := by omega
  have hn : ((keynum.toNat : Nat) : Int) = keynum := Int.toNat_of_nonneg (by omega)
  have hlt : keynum.toNat < 128 := by omega
  simp only [Key_KeynumToString, hne, if_false, h1, h2, and_self, if_true, gt_iff_lt,
    Key_StringToKeynum]
  rw [char_to_int_ascii c _ hlt, hn]

theorem printable_name_round_trip_witness :
    Key_StringToKeynum sampleConsts (some (Key_KeynumToString sampleConsts 97)) = 97 :=
  printable_name_round_trip sampleConsts 97 (by decide) (by decide)



/-! ### Key_EnumBindings -/

theorem Key_EnumBindings_loop_succ (s : Client) (binding : Text) (n key : Nat) :
    Key_EnumBindings_loop s binding (n + 1) key
      = if bound_to s binding key = true then (key : Int)
        else Key_EnumBindings_loop s binding n (key + 1) := by
  conv => lhs; unfold Key_EnumBindings_loop
  unfold bound_to
  cases s.keybindings key with
  | none => simp
  | some kb => simp

theorem Key_EnumBindings_loop_spec (s : Client) (binding : Text) (n : Nat) :
    ∀ key : Nat,
      (Key_EnumBindings_loop s binding n key = -1
        ∧ ∀ j, key ≤ j → j < key + n → bound_to s binding j = false)
      ∨ ∃ j : Nat, Key_EnumBindings_loop s binding n key = (j : Int)
          ∧ key ≤ j ∧ j < key + n ∧ bound_to s binding j = true
          ∧ ∀ i, key ≤ i → i < j → bound_to s binding i = false := by
  induction n with
  | zero =>
    intro key
    left
    exact ⟨rfl, fun j h1 h2 => by omega⟩
  | succ n ih =>
    intro key
    rw [Key_EnumBindings_loop_succ]
    by_cases hb : bound_to s binding key = true
    · right
      rw [if_pos hb]
      exact ⟨key, rfl, le_refl _, by omega, hb, fun i h1 h2 => by omega⟩
    · have hbf : bound_to s binding key = false := by
        cases h : bound_to s binding key
        · rfl
        · exact absurd h hb
      rw [if_neg hb]
      rcases ih (key + 1) with ⟨h1, h2⟩ | ⟨j, h1, h2, h3, h4, h5⟩
      · left
        refine ⟨h1, fun j hj1 hj2 => ?_⟩
        by_cases hjk : j = key
        · rw [hjk]; exact hbf
        · exact h2 j (by omega) (by omega)
      · right
        refine ⟨j, h1, by omega, by omega, h4, fun i hi1 hi2 => ?_⟩
        by_cases hik : i = key
        · rw [hik]; exact hbf
        · exact h5 i (by omega) hi2

theorem Key_EnumBindings_loop_head (s : Client) (binding : Text) (n : Nat) :
    ∀ key : Nat,
      Key_EnumBindings_loop s binding n key
        = match ((List.range' key n).filter (bound_to s binding)).head? with
          | some j => (j : Int)
          | none => -1 := by
  induction n with
  | zero => intro key; rfl
  | succ n ih =>
    intro key
    rw [Key_EnumBindings_loop_succ, List.range'_succ]
    by_cases hb : bound_to s binding key = true
    · rw [if_pos hb, List.filter_cons_of_pos hb]
      rfl
    · rw [if_neg hb, List.filter_cons_of_neg hb]
      exact ih (key + 1)

theorem filter_range'_tail (p : Nat → Bool) (n : Nat) :
    ∀ (a j : Nat) (rest : List Nat), (List.range' a n).filter p = j :: rest →
      a ≤ j ∧ j < a + n ∧ rest = (List.range' (j + 1) (a + n - (j + 1))).filter p := by
  induction n with
  | zero =>
    intro a j rest h
    simp at h
  | succ n ih =>
    intro a j rest h
    rw [List.range'_succ] at h
    by_cases hp : p a = true
    · rw [List.filter_cons_of_pos hp] at h
      cases h
      refine ⟨le_refl _, by omega, ?_⟩
      have : a + (n + 1) - (a + 1) = n := by omega
      rw [this]
    · rw [List.filter_cons_of_neg hp] at h
      obtain ⟨h1, h2, h3⟩ := ih (a + 1) j rest h
      refine ⟨by omega, by omega, ?_⟩
      have : a + (n + 1) - (j + 1) = a + 1 + n - (j + 1) := by omega
      rw [this]
      exact h3

theorem Key_EnumBindings_nat (s : Client) (binding : Text) (key : Nat) :
    Key_EnumBindings s (key : Int) binding
      = Key_EnumBindings_loop s binding (256 - key) key := by
  unfold Key_EnumBindings
  have : ¬ ((key : Int) < 0) := by omega
  simp [this]

theorem enum_all_eq (s : Client) (binding : Text) (n : Nat) :
    ∀ start : Nat,
      ((List.range' start (256 - start)).filter (bound_to s binding)).length < n →
      enum_all s binding n (start : Int)
        = ((List.range' start (256 - start)).filter (bound_to s binding)).map Int.ofNat := by
  induction n with
  | zero => intro start h; omega
  | succ n ih =>
    intro start h
    unfold enum_all
    simp only []
    rw [Key_EnumBindings_nat, Key_EnumBindings_loop_head]
    cases hf : (List.range' start (256 - start)).filter (bound_to s binding) with
    | nil => simp
    | cons j rest =>
      obtain ⟨h1, h2, h3⟩ := filter_range'_tail _ _ _ _ _ hf
      rw [hf] at h
      have hj : ((j : Int) = -1) = False := by
        apply propext
        constructor
        · intro h; omega
        · intro h; exact absurd h id
      have hlen : start + (256 - start) - (j + 1) = 256 - (j + 1) := by omega
      rw [hlen] at h3
      simp only [List.head?_cons, hj, if_false, List.map_cons]
      have := ih (j + 1) (by rw [← h3]; simpa using h)
      rw [show ((j : Int) + 1) = ((j + 1 : Nat) : Int) by push_cast; rfl, this, ← h3]
      rfl
theorem Key_EnumBindings_cases (s : Client) (f : Int) (text : Text) :
    (Key_EnumBindings s f text = -1
      ∧ ∀ j : Nat, max f 0 ≤ (j : Int) → j < 256 → bound_to s text j = false)
    ∨ ∃ j : Nat, Key_EnumBindings s f text = (j : Int)
        ∧ max f 0 ≤ (j : Int) ∧ j < 256 ∧ bound_to s text j = true
        ∧ ∀ i : Nat, max f 0 ≤ (i : Int) → i < j → bound_to s text i = false := by
  obtain ⟨k0, hk0, hmax⟩ : ∃ k0 : Nat, (if f < 0 then 0 else f.toNat) = k0
      ∧ max f 0 = (k0 : Int) := by
    by_cases hf : f < 0
    · exact ⟨0, by simp [hf], by omega⟩
    · exact ⟨f.toNat, by simp [hf], by omega⟩
  have hE : Key_EnumBindings s f text = Key_EnumBindings_loop s text (256 - k0) k0 := by
    unfold Key_EnumBindings
    simp only []
    rw [hk0]
  rw [hE, hmax]
  rcases Key_EnumBindings_loop_spec s text (256 - k0) k0 with ⟨h1, h2⟩ | ⟨j, h1, h2, h3, h4, h5⟩
  · left
    exact ⟨h1, fun j hj1 hj2 => h2 j (by omega) (by omega)⟩
  · right
    exact ⟨j, h1, by omega, by omega, h4, fun i hi1 hi2 => h5 i (by omega) hi2⟩

/-- C13: `Key_EnumBindings(f, text)` returns the smallest code from
`max(f, 0)` up to 255 whose bound text is non-null and equal to `text`
ignoring case; it returns `-1` exactly when there is no such code; it
returns nothing else; and asking again from the code after the last answer,
starting at 0, lists the matching codes of 0..255 in ascending order, each
once. -/
theorem Key_EnumBindings_finds_smallest (s : Client) (f : Int) (text : Text) :
    (∀ j : Nat, Key_EnumBindings s f text = (j : Int) →
        max f 0 ≤ (j : Int) ∧ j < 256 ∧ bound_to s text j = true
        ∧ ∀ i : Nat, max f 0 ≤ (i : Int) → i < j → bound_to s text i = false)
    ∧ (Key_EnumBindings s f text = -1
        ↔ ∀ j : Nat, max f 0 ≤ (j : Int) → j < 256 → bound_to s text j = false)
    ∧ (Key_EnumBindings s f text = -1 ∨ ∃ j : Nat, Key_EnumBindings s f text = (j : Int))
    ∧ enum_all s text 257 0
        = ((List.range 256).filter (bound_to s text)).map Int.ofNat := by
  refine ⟨?_, ?_, ?_, ?_⟩
  · intro j hj
    rcases Key_EnumBindings_cases s f text with ⟨h1, _⟩ | ⟨j1, h1, h2, h3, h4, h5⟩
    · rw [h1] at hj; omega
    · rw [h1] at hj
      have : j1 = j := by omega
      subst this
      exact ⟨h2, h3, h4, h5⟩
  · constructor
    · intro hr
      rcases Key_EnumBindings_cases s f text with ⟨_, h2⟩ | ⟨j1, h1, _⟩
      · exact h2
      · rw [h1] at hr; omega
    · intro hall
      rcases Key_EnumBindings_cases s f text with ⟨h1, _⟩ | ⟨j1, _, h2, h3, h4, _⟩
      · exact h1
      · rw [hall j1 h2 h3] at h4
        exact absurd h4 (by decide)
  · rcases Key_EnumBindings_cases s f text with ⟨h1, _⟩ | ⟨j1, h1, _⟩
    · exact Or.inl h1
    · exact Or.inr ⟨j1, h1⟩
  · have h := enum_all_eq s text 257 0 (by
      have := List.length_filter_le (bound_to s text) (List.range' 0 (256 - 0))
      simp only [List.length_range'] at this
      omega)
    rw [List.range_eq_range']
    simpa using h
/-! ### Key_SetBinding -/

theorem upd_upd {α : Type} (f : Nat → α) (i : Nat) (v : α) : upd (upd f i v) i v = upd f i v := by
  funext j
  unfold upd
  split <;> rfl

theorem Key_SetBinding_twice (s : Client) (keynum : Int) (binding : Option Text) :
    Key_SetBinding (Key_SetBinding s keynum binding) keynum binding
      = Key_SetBinding s keynum binding := by
  unfold Key_SetBinding
  by_cases h : keynum < 0 ∨ keynum > 255
  · simp [h]
  · simp only [if_neg h]
    rw [upd_upd]

theorem Key_EnumBindings_first (s : Client) (k : Nat) (text : Text) (hk : k < 256)
    (hb : bound_to s text k = true) (hlow : ∀ j, j < k → bound_to s text j = false) :
    Key_EnumBindings s 0 text = (k : Int) := by
  rcases Key_EnumBindings_cases s 0 text with ⟨_, h2⟩ | ⟨j, h1, _, _, h4, h5⟩
  · rw [h2 k (by omega) hk] at hb
    exact absurd hb (by decide)
  · rw [h1]
    by_cases hjk : j = k
    · rw [hjk]
    · by_cases hlt : j < k
      · rw [hlow j hlt] at h4
        exact absurd h4 (by decide)
      · rw [h5 k (by omega) (by omega)] at hb
        exact absurd hb (by decide)

theorem Q_stricmp_eq_refl (a : Text) : Q_stricmp_eq a a = true := by
  simp [Q_stricmp_eq]

/-- C14 (amended): for a code `k` below 256, setting a binding twice gives the
same state as setting it once; afterwards slot `k` holds the text and every
other slot is as before; and when no code below `k` is bound to a text equal
to `jump` ignoring case, after `Key_SetBinding(k, "jump")` twice
`Key_EnumBindings(0, "jump")` returns `k`. -/
theorem set_binding_idempotent (s : Client) (k : Nat) (binding : Option Text) (hk : k < 256) :
    Key_SetBinding (Key_SetBinding s k binding) k binding = Key_SetBinding s k binding
      ∧ (Key_SetBinding s k binding).keybindings k = binding
      ∧ (∀ j, j ≠ k → (Key_SetBinding s k binding).keybindings j = s.keybindings j)
      ∧ ((∀ j, j < k → bound_to s "jump".toList j = false) →
          Key_EnumBindings
              (Key_SetBinding (Key_SetBinding s k (some "jump".toList)) k (some "jump".toList))
              0 "jump".toList = (k : Int)) := by
  refine ⟨Key_SetBinding_twice s k binding, ?_, ?_, ?_⟩
  · rw [Key_SetBinding_nat s k binding hk]
    simp [upd]
  · intro j hj
    rw [Key_SetBinding_nat s k binding hk]
    simp [upd, hj]
  · intro hlow
    rw [Key_SetBinding_twice, Key_SetBinding_nat s k _ hk]
    apply Key_EnumBindings_first _ k _ hk
    · simp [bound_to, upd, Q_stricmp_eq_refl]
    · intro j hj
      have hne : j ≠ k := by omega
      have := hlow j hj
      unfold bound_to at this ⊢
      simpa [upd, hne] using this

theorem set_binding_idempotent_witness :
    Key_SetBinding (Key_SetBinding gameClient 20 (some "jump".toList)) 20 (some "jump".toList)
        = Key_SetBinding gameClient 20 (some "jump".toList)
      ∧ (Key_SetBinding gameClient 20 (some "jump".toList)).keybindings 20
          = some "jump".toList
      ∧ Key_EnumBindings
          (Key_SetBinding (Key_SetBinding gameClient 20 (some "jump".toList)) 20
            (some "jump".toList)) 0 "jump".toList = 20 := by
  obtain ⟨h1, h2, _, h4⟩ :=
    set_binding_idempotent gameClient 20 (some "jump".toList) (by decide)
  exact ⟨h1, h2, h4 (by decide)⟩

/-- C14 (counterexample): key 10 is bound to `JUMP`, so no code below 20 is
bound to the text `jump` itself; after `Key_SetBinding(20, "jump")` twice
`Key_EnumBindings(0, "jump")` returns 10, not 20. -/
theorem set_binding_lookup_counterexample :
    (∀ j, j < 20 → jumpClient.keybindings j ≠ some "jump".toList)
      ∧ Key_EnumBindings
          (Key_SetBinding (Key_SetBinding jumpClient 20 (some "jump".toList)) 20
            (some "jump".toList)) 0 "jump".toList = 10 :=
  ⟨by decide, by decide⟩

/-! ### Key_WriteBindings -/

theorem Key_WriteBindings_loop_eq (c : Consts) (s : Client) (n : Nat) :
    ∀ i : Nat, Key_WriteBindings_loop c s n i
      = ((List.range' i n).filterMap (written_line c s)).flatten := by
  induction n with
  | zero => intro i; rfl
  | succ n ih =>
    intro i
    rw [List.range'_succ]
    unfold Key_WriteBindings_loop
    rw [ih (i + 1)]
    cases hw : written_line c s i with
    | none =>
      rw [List.filterMap_cons_none hw]
      unfold written_line at hw
      cases hk : s.keybindings i with
      | none => simp
      | some kb =>
        rw [hk] at hw
        by_cases hkb : kb = []
        · simp [hkb]
        · simp [hkb] at hw
    | some line =>
      rw [List.filterMap_cons_some hw]
      unfold written_line at hw
      cases hk : s.keybindings i with
      | none => rw [hk] at hw; cases hw
      | some kb =>
        rw [hk] at hw
        by_cases hkb : kb = []
        · simp [hkb] at hw
        · simp only [ne_eq, hkb, not_false_eq_true, if_true, Option.some.injEq] at hw
          simp [hkb, hw]

/-- C15: `Key_WriteBindings` writes, in ascending order of the key codes 0 to
255, one line for each code whose bound text is non-null and non-empty and
nothing for the other codes; the line is `bind`, a blank, the name
`Key_KeynumToString` gives the code, a blank, and the text between double
quotes, copied as it is, followed by a newline. -/
theorem write_bindings_format (c : Consts) (s : Client) :
    Key_WriteBindings c s = ((List.range 256).filterMap (written_line c s)).flatten
      ∧ (∀ i kb, s.keybindings i = some kb → kb ≠ [] →
          written_line c s i
            = some ("bind ".toList ++ Key_KeynumToString c i ++ [' ', Char.ofNat 34] ++ kb
                ++ [Char.ofNat 34, '\n']))
      ∧ (∀ i, s.keybindings i = none ∨ s.keybindings i = some [] → written_line c s i = none) := by
  refine ⟨?_, ?_, ?_⟩
  · unfold Key_WriteBindings
    rw [Key_WriteBindings_loop_eq, List.range_eq_range']
  · intro i kb h1 h2
    simp [written_line, h1, h2, bind_line, dquote]
  · intro i h
    rcases h with h | h <;> simp [written_line, h]
set_option maxRecDepth 100000 in
theorem write_bindings_example :
    Key_WriteBindings sampleConsts sayClient
      = "bind A \"+back\"\nbind a \"say hi\"\n".toList := by
  decide

/-! ### The wait hook -/

theorem Key_Event_hook (c : Consts) (w : WaitEnv) (key : Nat) (time : Nat) (s : Client)
    (cb : Nat) (hk : key < 256) (hcb : s.key_wait_cb = some cb) :
    Key_Event c w key true time s
      = if (w cb s.key_wait_arg key s).1 = false then Except.ok (w cb s.key_wait_arg key s).2
        else Except.ok (Key_Event_repeat c key true time (w cb s.key_wait_arg key s).2) := by
  have : ¬ key ≥ 256 := by omega
  simp [Key_Event, this, hcb]

/-- C17 (amended): `Key_Event` never disarms the wait hook. After a key-down
event for a key below 256 with the callback `cb` armed, the hook and its
argument are what the callback left: still `cb` when the callback did not
itself call `Key_WaitKey`, so that the next key-down event invokes it again. -/
theorem wait_hook_stays_armed (c : Consts) (w : WaitEnv) (s : Client) (cb key time : Nat)
    (hk : key < 256) (hcb : s.key_wait_cb = some cb) :
    ∃ s1, Key_Event c w key true time s = Except.ok s1
      ∧ s1.key_wait_cb = (w cb s.key_wait_arg key s).2.key_wait_cb
      ∧ s1.key_wait_arg = (w cb s.key_wait_arg key s).2.key_wait_arg
      ∧ ((w cb s.key_wait_arg key s).2.key_wait_cb = some cb → s1.key_wait_cb = some cb) := by
  have h := Key_Event_hook c w key time s cb hk hcb
  by_cases hrej : (w cb s.key_wait_arg key s).1 = false
  · rw [if_pos hrej] at h
    exact ⟨_, h, rfl, rfl, id⟩
  · rw [if_neg hrej] at h
    have hcf := config_fields
      (Key_Event_repeat_config c key true time (w cb s.key_wait_arg key s).2)
    exact ⟨_, h, hcf.1, hcf.2.1, fun h' => by rw [hcf.1]; exact h'⟩

theorem wait_hook_stays_armed_witness :
    ∃ s1, Key_Event sampleConsts acceptAll 97 true 10 waitingClient = Except.ok s1
      ∧ s1.key_wait_cb = some 1 := by
  obtain ⟨s1, h1, _, _, h4⟩ :=
    wait_hook_stays_armed sampleConsts acceptAll waitingClient 1 97 10 (by decide) rfl
  exact ⟨s1, h1, h4 rfl⟩

/-- C17 (counterexample): the callback armed by `Key_WaitKey` binds the key it
is given and does not call `Key_WaitKey`. After the key-down event for `a`
the hook is still armed, and the later key-down event for `b` invokes the
callback again: both keys end up bound, and `Key_WaitKey` was not called in
between. -/
theorem wait_hook_one_shot_counterexample :
    ∃ s1 s2,
      Key_Event sampleConsts bindHook 97 true 10 (Key_WaitKey gameClient (some 1) 0)
          = Except.ok s1
      ∧ s1.key_wait_cb = some 1
      ∧ s1.keybindings 97 = some "+use".toList
      ∧ s1.keybindings 98 = none
      ∧ Key_Event sampleConsts bindHook 98 true 20 s1 = Except.ok s2
      ∧ s2.keybindings 98 = some "+use".toList
      ∧ s2.key_wait_cb = some 1 :=
  ⟨_, _, rfl, by decide, by decide, by decide, rfl, by decide, by decide⟩

/-! ### The fatal error -/

/-- C18: `Key_Event` ends in the fatal error exactly when the key is 256 or
more; it then yields no state at all (the error is raised before anything is
written); for a key below 256 it returns a state. -/
theorem fatal_iff_bad_key (c : Consts) (w : WaitEnv) (s : Client) (key : Nat) (down : Bool)
    (time : Nat) :
    (Key_Event c w key down time s = Except.error Fatal.bad_key ↔ 256 ≤ key)
      ∧ (256 ≤ key → ∀ s1, Key_Event c w key down time s ≠ Except.ok s1)
      ∧ (key < 256 → ∃ s1, Key_Event c w key down time s = Except.ok s1) := by
  have hlt : key < 256 → ∃ s1, Key_Event c w key down time s = Except.ok s1 := by
    intro hk
    have hn : ¬ key ≥ 256 := by omega
    simp only [Key_Event, if_neg hn]
    split
    · split
      · split
        · exact ⟨_, rfl⟩
        · exact ⟨_, rfl⟩
      · exact ⟨_, rfl⟩
    · exact ⟨_, rfl⟩
  have hge : 256 ≤ key → Key_Event c w key down time s = Except.error Fatal.bad_key := by
    intro hk
    simp [Key_Event, hk]
  refine ⟨⟨fun h => ?_, hge⟩, fun hk s1 h => ?_, hlt⟩
  · by_contra hk
    obtain ⟨s1, hs1⟩ := hlt (by omega)
    rw [hs1] at h
    cases h
  · rw [hge hk] at h
    cases h
/-! ### The commands `bind` and `unbind` -/

theorem find?_unique {α : Type} (l : List α) (p : α → Bool) (e : α) (he : e ∈ l)
    (hp : p e = true) (huniq : ∀ x ∈ l, p x = true → x = e) : l.find? p = some e := by
  induction l with
  | nil => cases he
  | cons a l ih =>
    by_cases hpa : p a = true
    · rw [List.find?_cons_of_pos _ hpa, huniq a (List.mem_cons_self a l) hpa]
    · rw [List.find?_cons_of_neg _ hpa]
      have hne : e ≠ a := fun h => hpa (h ▸ hp)
      rcases List.mem_cons.mp he with h | h
      · exact absurd h hne
      · exact ih h (fun x hx => huniq x (List.mem_cons_of_mem a hx))

theorem keynames_names (c : Consts) :
    (keynames c).map Prod.fst = (keynames sampleConsts).map Prod.fst := rfl

set_option maxRecDepth 100000 in
theorem keynames_lower_nodup :
    (((keynames sampleConsts).map Prod.fst).map (fun n => n.map Q_tolower)).Nodup := by
  decide

set_option maxRecDepth 100000 in
theorem keynames_long :
    ∀ n ∈ (keynames sampleConsts).map Prod.fst, 2 ≤ n.length := by
  decide

theorem keynames_same_name (c : Consts) (e x : Text × Nat) (he : e ∈ keynames c)
    (hx : x ∈ keynames c) (h : x.1.map Q_tolower = e.1.map Q_tolower) : x = e := by
  have hnd : ((keynames c).map (fun e => e.1.map Q_tolower)).Nodup := by
    have := keynames_lower_nodup
    rw [← keynames_names c, List.map_map] at this
    exact this
  exact List.inj_on_of_nodup_map hnd hx he h

/-- C11: for every entry (name, code) of the table `keynames` and every
string equal to the name up to ASCII letter case, `Key_StringToKeynum`
returns the code of the entry. -/
theorem name_to_code (c : Consts) (e : Text × Nat) (str : Text) (he : e ∈ keynames c)
    (hs : str.map Q_tolower = e.1.map Q_tolower) :
    Key_StringToKeynum c (some str) = (e.2 : Int) := by
  have hlen : 2 ≤ str.length := by
    have h1 : e.1 ∈ (keynames c).map Prod.fst := List.mem_map_of_mem _ he
    rw [keynames_names c] at h1
    have h2 := keynames_long e.1 h1
    have h3 := congrArg List.length hs
    simp only [List.length_map] at h3
    omega
  have hfind : (keynames c).find? (fun kn => Q_stricmp_eq str kn.1) = some e := by
    apply find?_unique _ _ e he
    · simp [Q_stricmp_eq, hs]
    · intro x hx hpx
      apply keynames_same_name c e x he hx
      have : str.map Q_tolower = x.1.map Q_tolower := by simpa [Q_stricmp_eq] using hpx
      rw [← this, hs]
  match str, hlen, hfind with
  | [], hlen, _ => simp at hlen
  | [ch], hlen, _ => simp at hlen
  | a :: b :: rest, _, hfind =>
    simp only [Key_StringToKeynum]
    rw [hfind]

theorem name_to_code_witness :
    Key_StringToKeynum sampleConsts (some "mWheelUp".toList) = 211 :=
  name_to_code sampleConsts ("MWHEELUP".toList, 211) "mWheelUp".toList (by decide) (by decide)

/-- C12: the table `keynames` holds the entry `SEMICOLON` for the code of the
semicolon (59), but `Key_KeynumToString` names that code by its character,
because 59 lies in the range of printable characters that is tested before
the table is searched. -/
theorem semicolon_named_by_character (c : Consts) :
    ("SEMICOLON".toList, 59) ∈ keynames c
      ∧ Key_KeynumToString c 59 = [';']
      ∧ Key_KeynumToString c 59 ≠ "SEMICOLON".toList := by
  refine ⟨?_, ?_, ?_⟩
  · simp [keynames]
  · simp [Key_KeynumToString]
  · simp [Key_KeynumToString]

/-- For the entries of `keynames` whose code lies outside the printable range
33..126, and as long as no two entries share a code, `Key_KeynumToString`
returns the name of the entry. -/
theorem code_to_name_outside_printable (c : Consts) (e : Text × Nat) (he : e ∈ keynames c)
    (hcodes : ((keynames c).map Prod.snd).Nodup) (hout : ¬ (32 < e.2 ∧ e.2 < 127)) :
    Key_KeynumToString c (e.2 : Int) = e.1 := by
  have h1 : ¬ ((e.2 : Int) = -1) := by omega
  have h2 : ¬ ((e.2 : Int) > 32 ∧ (e.2 : Int) < 127) := by omega
  have hfind : (keynames c).find? (fun kn => decide ((e.2 : Int) = (kn.2 : Int))) = some e := by
    apply find?_unique _ _ e he
    · simp
    · intro x hx hpx
      have hx2 : x.2 = e.2 := by
        have : (e.2 : Int) = (x.2 : Int) := by simpa using hpx
        omega
      exact List.inj_on_of_nodup_map hcodes hx he hx2
  simp only [Key_KeynumToString, if_neg h1, if_neg h2]
  rw [hfind]

/-! ### Key-up events and the down flag -/

/-- A key-up event that no hardcoded override takes clears the down flag. -/
theorem up_event_clears_down_flag (c : Consts) (w : WaitEnv) (s : Client) (k time : Nat)
    (hk : k < 256) (hh : ¬ hardcoded c k s) :
    ∃ s1, Key_Event c w k false time s = Except.ok s1 ∧ Key_IsDown s1 k = false := by
  refine ⟨_, Key_Event_up c w k time s hk, ?_⟩
  rcases (Key_Event_repeat_up_summary c k time s).2 with ⟨h, _⟩ | ⟨_, h, _⟩
  · exact absurd h hh
  · rw [Key_IsDown_nat, h]
    simp [upd]

/-- C20: the console key (backtick, code 96) is pressed while SHIFT is held and
released after SHIFT was let go: the key-up event is taken by the console
override before the bookkeeping, so the down flag of the key stays set and
the counter of keys held down stays 1 with no key held. Likewise for ENTER
pressed alone and released while ALT is held. -/
theorem up_event_leaves_key_down :
    (∃ s, run sampleConsts acceptAll
          [Op.init, Op.event sampleConsts.K_SHIFT true 1, Op.event 96 true 2,
            Op.event sampleConsts.K_SHIFT false 3, Op.event 96 false 4] Client.zero
          = Except.ok s
        ∧ Key_IsDown s 96 = true ∧ Key_IsDown s sampleConsts.K_SHIFT = false
        ∧ Key_AnyKeyDown s = 1)
      ∧ (∃ s, run sampleConsts acceptAll
          [Op.init, Op.event sampleConsts.K_ENTER true 1, Op.event sampleConsts.K_ALT true 2,
            Op.event sampleConsts.K_ENTER false 3] Client.zero
          = Except.ok s
        ∧ Key_IsDown s sampleConsts.K_ENTER = true) :=
  ⟨⟨_, rfl, by decide, by decide, by decide⟩, ⟨_, rfl, by decide⟩⟩



/-! ### Examples of the lookup -/

set_option maxRecDepth 100000 in
theorem enum_bindings_example :
    Key_EnumBindings sayClient 0 "SAY HI".toList = 97
      ∧ Key_EnumBindings sayClient 98 "say hi".toList = -1
      ∧ Key_EnumBindings sayClient (-5) "+BACK".toList = 65
      ∧ enum_all (Key_SetBinding sayClient 200 (some "Say Hi".toList)) "say hi".toList 257 0
          = [97, 200] := by
  decide


/-! ### Names written for bound keys -/

theorem Key_StringToKeynum_table (c : Consts) (e : Text × Nat) (he : e ∈ keynames c) :
    Key_StringToKeynum c (some e.1) = (e.2 : Int) := by
  have hlen : 2 ≤ e.1.length := by
    have h1 : e.1 ∈ (keynames c).map Prod.fst := List.mem_map_of_mem _ he
    rw [keynames_names c] at h1
    exact keynames_long e.1 h1
  have hfind : (keynames c).find? (fun kn => Q_stricmp_eq e.1 kn.1) = some e := by
    apply find?_unique _ _ e he
    · simp [Q_stricmp_eq]
    · intro x hx hpx
      apply keynames_same_name c e x he hx
      have : e.1.map Q_tolower = x.1.map Q_tolower := by simpa [Q_stricmp_eq] using hpx
      rw [this]
  match hn : e.1, hlen, hfind with
  | [], hlen, _ => simp at hlen
  | [ch], hlen, _ => simp at hlen
  | a :: b :: rest, _, hfind =>
    simp only [Key_StringToKeynum]
    rw [hfind]

theorem Key_StringToKeynum_printable (c : Consts) (keynum : Int) (h1 : 32 < keynum)
    (h2 : keynum < 127) :
    Key_StringToKeynum c (some (Key_KeynumToString c keynum)) = keynum := by
  have hne : keynum ≠ -1 := by omega
  have hn : ((keynum.toNat : Nat) : Int) = keynum := Int.toNat_of_nonneg (by omega)
  have hlt : keynum.toNat < 128 := by omega
  simp only [Key_KeynumToString, hne, if_false, h1, h2, and_self, if_true, gt_iff_lt,
    Key_StringToKeynum]
  rw [char_to_int_ascii c _ hlt, hn]

/-- C21 (amended): as long as no two entries of `keynames` share a code, for
every key code that is a printable character code (33 to 126) or the code of
an entry of `keynames` (which covers space, DEL and the named keys above
127), the name `Key_KeynumToString` gives the code, which is the name
`Key_WriteBindings` writes, is mapped back to the code by
`Key_StringToKeynum`. -/
theorem written_name_restores_key (c : Consts) (keynum : Int)
    (hcodes : ((keynames c).map Prod.snd).Nodup)
    (hnamed : (32 < keynum ∧ keynum < 127) ∨ ∃ e ∈ keynames c, keynum = (e.2 : Int)) :
    Key_StringToKeynum c (some (Key_KeynumToString c keynum)) = keynum := by
  by_cases hp : 32 < keynum ∧ keynum < 127
  · exact Key_StringToKeynum_printable c keynum hp.1 hp.2
  · rcases hnamed with h | ⟨e, he, hk⟩
    · exact absurd h hp
    · have hout : ¬ (32 < e.2 ∧ e.2 < 127) := by
        rw [hk] at hp
        omega
      rw [hk, code_to_name_outside_printable c e he hcodes hout]
      exact Key_StringToKeynum_table c e he

set_option maxRecDepth 100000 in
theorem sampleConsts_codes_nodup : ((keynames sampleConsts).map Prod.snd).Nodup := by
  decide

theorem written_name_restores_key_witness :
    Key_StringToKeynum sampleConsts (some (Key_KeynumToString sampleConsts 32)) = 32
      ∧ Key_StringToKeynum sampleConsts (some (Key_KeynumToString sampleConsts 127)) = 127
      ∧ Key_StringToKeynum sampleConsts (some (Key_KeynumToString sampleConsts 200)) = 200
      ∧ Key_StringToKeynum sampleConsts (some (Key_KeynumToString sampleConsts 59)) = 59 :=
  ⟨written_name_restores_key sampleConsts 32 sampleConsts_codes_nodup
      (Or.inr ⟨("SPACE".toList, 32), by decide, rfl⟩),
    written_name_restores_key sampleConsts 127 sampleConsts_codes_nodup
      (Or.inr ⟨("DEL".toList, 127), by decide, rfl⟩),
    written_name_restores_key sampleConsts 200 sampleConsts_codes_nodup
      (Or.inr ⟨("MOUSE1".toList, 200), by decide, rfl⟩),
    written_name_restores_key sampleConsts 59 sampleConsts_codes_nodup
      (Or.inl ⟨by decide, by decide⟩)⟩

/-- C21 (counterexample): the control character with code 1 is a key the
`bind` command can address (the one-character string maps to 1), but the
name written for it is `<UNKNOWN KEYNUM>`, which maps to `-1`. The same
holds for code 10 (the newline), and, where plain `char` is unsigned, for
code 255. -/
theorem written_name_counterexample :
    (Key_StringToKeynum sampleConsts (some [Char.ofNat 1]) = 1
        ∧ Key_KeynumToString sampleConsts 1 = "<UNKNOWN KEYNUM>".toList
        ∧ Key_StringToKeynum sampleConsts (some (Key_KeynumToString sampleConsts 1)) = -1)
      ∧ (Key_StringToKeynum sampleConsts (some ['\n']) = 10
        ∧ Key_StringToKeynum sampleConsts (some (Key_KeynumToString sampleConsts 10)) = -1)
      ∧ (Key_StringToKeynum unsignedCharConsts (some [Char.ofNat 255]) = 255
        ∧ Key_StringToKeynum unsignedCharConsts
            (some (Key_KeynumToString unsignedCharConsts 255)) = -1) := by
  decide


end Keys
